import Mathlib

/-!
Verification of the scout in-browser telemetry agent (src/static/js/track.js).

The development shallowly embeds the tracking agent: the cookie codec
(`valueEncoder` / `valueDecoder`), the JSON payload serialization used for the
identity cookies, and the stateful operations over the page's runtime state
(`runtimeInfo`), cookie jar and beacon transport.  Platform builtins
(`encodeURIComponent`, `btoa`, `atob`, `decodeURIComponent`, `JSON.parse`,
`JSON.stringify`) are modelled faithfully to their ECMAScript semantics on the
value shapes this agent feeds them.
-/

set_option maxRecDepth 16384

namespace Scout

/-! ## Cookie codec (`valueEncoder` / `valueDecoder`, track.js lines 510-551) -/

/-- UTF-8 encoding of a single Unicode scalar value, written with division and
remainder so the reassembly arithmetic is visible to `omega`. -/
def utf8EncodeChar (c : Char) : List Nat :=
  if c.toNat < 128 then [c.toNat]
  else if c.toNat < 2048 then [192 + c.toNat / 64, 128 + c.toNat % 64]
  else if c.toNat < 65536 then
    [224 + c.toNat / 4096, 128 + c.toNat / 64 % 64, 128 + c.toNat % 64]
  else
    [240 + c.toNat / 262144, 128 + c.toNat / 4096 % 64, 128 + c.toNat / 64 % 64,
      128 + c.toNat % 64]

/-- The `uriUnescaped` character set of ECMAScript `encodeURIComponent`:
ASCII alphanumerics and `- _ . ! ~ * ' ( )` (codes 45 95 46 33 126 42 39 40 41). -/
def uriUnescaped (c : Char) : Bool :=
  let n := c.toNat
  decide ((65 ≤ n ∧ n ≤ 90) ∨ (97 ≤ n ∧ n ≤ 122) ∨ (48 ≤ n ∧ n ≤ 57) ∨
    n ∈ ([45, 95, 46, 33, 126, 42, 39, 40, 41] : List Nat))

/-- Uppercase hexadecimal digit for `d < 16` (as produced by `encodeURIComponent`). -/
def hexUpperChar (d : Nat) : Char :=
  Char.ofNat (if d < 10 then 48 + d else 55 + d)

/-- Lowercase hexadecimal digit for `d < 16` (as produced by
`Number.prototype.toString(16)` in `valueDecoder`). -/
def hexLowerChar (d : Nat) : Char :=
  Char.ofNat (if d < 10 then 48 + d else 87 + d)

/-- A percent escape `%XX` with uppercase hex, one byte. -/
def escapeByte (b : Nat) : List Char :=
  ['%', hexUpperChar (b / 16), hexUpperChar (b % 16)]

/-- A percent escape `%xx` with lowercase hex, one byte (the form built by
`valueDecoder` before calling `decodeURIComponent`). -/
def escapeByteLower (b : Nat) : List Char :=
  ['%', hexLowerChar (b / 16), hexLowerChar (b % 16)]

/-- Model of `encodeURIComponent`: unescaped characters pass through, every
other character is replaced by the uppercase percent escapes of its UTF-8 bytes. -/
def encodeURIComponentChars (cs : List Char) : List Char :=
  cs.flatMap fun c =>
    if uriUnescaped c then [c] else (utf8EncodeChar c).flatMap escapeByte

/-- Membership in the regex class `[0-9A-F]` used by `valueEncoder`'s
`replace(/%([0-9A-F]\x7b2\x7d)/g, ...)`. -/
def isUpperHexDigit (c : Char) : Bool :=
  decide ((48 ≤ c.toNat ∧ c.toNat ≤ 57) ∨ (65 ≤ c.toNat ∧ c.toNat ≤ 70))

/-- Membership in `[0-9A-Fa-f]`, the escape digits accepted by
`decodeURIComponent`. -/
def isHexDigitChar (c : Char) : Bool :=
  decide ((48 ≤ c.toNat ∧ c.toNat ≤ 57) ∨ (65 ≤ c.toNat ∧ c.toNat ≤ 70) ∨
    (97 ≤ c.toNat ∧ c.toNat ≤ 102))

/-- Numeric value of a hexadecimal digit character (either case). -/
def hexCharVal (c : Char) : Nat :=
  if c.toNat ≤ 57 then c.toNat - 48
  else if c.toNat ≤ 70 then c.toNat - 55
  else c.toNat - 87

/-- Model of the global regex replace
`safeString.replace(/%([0-9A-F]\x7b2\x7d)/g, byte)` in `valueEncoder`:
scan left to right, turning each `%XX` escape into the character with that
code; characters that do not start a match are kept and the scan resumes at
the next character. -/
def percentToByteChars : List Char → List Char
  | [] => []
  | c :: h1 :: h2 :: rest2 =>
    if c = '%' ∧ isUpperHexDigit h1 ∧ isUpperHexDigit h2 then
      Char.ofNat (16 * hexCharVal h1 + hexCharVal h2) :: percentToByteChars rest2
    else c :: percentToByteChars (h1 :: h2 :: rest2)
  | c :: rest => c :: percentToByteChars rest
termination_by l => l.length
decreasing_by all_goals (simp [List.length] <;> omega)

/-- Character `k` of the standard base64 alphabet (`A-Z a-z 0-9 + /`). -/
def b64Char (k : Nat) : Char :=
  if k < 26 then Char.ofNat (65 + k)
  else if k < 52 then Char.ofNat (71 + k)
  else if k < 62 then Char.ofNat (k - 4)
  else if k = 62 then '+'
  else '/'

/-- Model of `btoa` on a byte sequence: standard base64 with `=` padding. -/
def btoaChars : List Nat → List Char
  | [] => []
  | [a] => [b64Char (a / 4), b64Char (a % 4 * 16), '=', '=']
  | [a, b] => [b64Char (a / 4), b64Char (a % 4 * 16 + b / 16), b64Char (b % 16 * 4), '=']
  | a :: b :: c :: rest =>
    b64Char (a / 4) :: b64Char (a % 4 * 16 + b / 16) ::
      b64Char (b % 16 * 4 + c / 64) :: b64Char (c % 64) :: btoaChars rest

/-- The `replace(/\+/g, '-').replace(/\x2f/g, '_')` step of `valueEncoder`. -/
def websafeChar (c : Char) : Char :=
  if c = '+' then '-' else if c = '/' then '_' else c

/-- The step of `valueDecoder` replacing every dash with `+` and every
underscore with `/`. -/
def unwebsafeChar (c : Char) : Char :=
  if c = '-' then '+' else if c = '_' then '/' else c

/-- The `replace(/=+$/, '')` step of `valueEncoder`: drop every trailing `=`. -/
def dropTrailingEq (l : List Char) : List Char :=
  (l.reverse.dropWhile fun c => c = '=').reverse

/-- `valueEncoder` (track.js lines 541-551): percent-encode to UTF-8 bytes,
collapse the escapes into a byte string, base64 it, make it websafe and strip
the padding. -/
def valueEncoder (value : String) : String :=
  let safeString := percentToByteChars (encodeURIComponentChars value.data)
  String.mk (dropTrailingEq ((btoaChars (safeString.map Char.toNat)).map websafeChar))

/-- Value of one base64 alphabet character, `none` outside the alphabet. -/
def b64Val (c : Char) : Option Nat :=
  let n := c.toNat
  if 65 ≤ n ∧ n ≤ 90 then some (n - 65)
  else if 97 ≤ n ∧ n ≤ 122 then some (n - 71)
  else if 48 ≤ n ∧ n ≤ 57 then some (n + 4)
  else if n = 43 then some 62
  else if n = 47 then some 63
  else none

/-- Model of `atob`: decode groups of four base64 characters, allowing `=`
padding only at the end; invalid input yields `none` (the JS builtin throws). -/
def atobChars : List Char → Option (List Nat)
  | [] => some []
  | a :: b :: c :: d :: rest =>
    match b64Val a, b64Val b with
    | some av, some bv =>
      if c = '=' then
        if d = '=' ∧ rest = [] then some [av * 4 + bv / 16] else none
      else
        match b64Val c with
        | some cv =>
          if d = '=' then
            if rest = [] then some [av * 4 + bv / 16, bv % 16 * 16 + cv / 4] else none
          else
            match b64Val d with
            | some dv =>
              match atobChars rest with
              | some tail =>
                some ((av * 4 + bv / 16) :: (bv % 16 * 16 + cv / 4) :: (cv % 4 * 64 + dv) :: tail)
              | none => none
            | none => none
        | none => none
    | _, _ => none
  | _ => none

/-- The padding restoration `'=='.substring(0, (3 * value.length) % 4)` of
`valueDecoder` (`String.prototype.substring` clamps at the string's length). -/
def padFor (len : Nat) : List Char :=
  List.take (3 * len % 4) ['=', '=']

/-- Read one percent escape `%hh` from the front of the list, returning the
byte value and the remaining characters. -/
def readEsc : List Char → Option (Nat × List Char)
  | p :: h1 :: h2 :: rest =>
    if p = '%' ∧ isHexDigitChar h1 ∧ isHexDigitChar h2 then
      some (16 * hexCharVal h1 + hexCharVal h2, rest)
    else none
  | _ => none

/-- Decode the UTF-8 sequence led by byte `b`, whose continuation bytes (if
any) stand as further percent escapes at the front of `rest`.  Per the
ECMAScript `Decode` operation this rejects stray continuation bytes, overlong
forms, surrogate code points and out-of-range values. -/
def decodeLead (b : Nat) (rest : List Char) : Option (Nat × List Char) :=
  if b < 128 then some (b, rest)
  else if b < 192 then none
  else if b < 224 then
    (readEsc rest).bind fun br =>
      if 128 ≤ br.1 ∧ br.1 < 192 ∧ 128 ≤ (b - 192) * 64 + (br.1 - 128) then
        some ((b - 192) * 64 + (br.1 - 128), br.2)
      else none
  else if b < 240 then
    (readEsc rest).bind fun p2 =>
      (readEsc p2.2).bind fun p3 =>
        if 128 ≤ p2.1 ∧ p2.1 < 192 ∧ 128 ≤ p3.1 ∧ p3.1 < 192 ∧
            2048 ≤ (b - 224) * 4096 + (p2.1 - 128) * 64 + (p3.1 - 128) ∧
            ((b - 224) * 4096 + (p2.1 - 128) * 64 + (p3.1 - 128) < 55296 ∨
              57344 ≤ (b - 224) * 4096 + (p2.1 - 128) * 64 + (p3.1 - 128)) then
          some ((b - 224) * 4096 + (p2.1 - 128) * 64 + (p3.1 - 128), p3.2)
        else none
  else if b < 248 then
    (readEsc rest).bind fun p2 =>
      (readEsc p2.2).bind fun p3 =>
        (readEsc p3.2).bind fun p4 =>
          if 128 ≤ p2.1 ∧ p2.1 < 192 ∧ 128 ≤ p3.1 ∧ p3.1 < 192 ∧ 128 ≤ p4.1 ∧ p4.1 < 192 ∧
              65536 ≤ (b - 240) * 262144 + (p2.1 - 128) * 4096 + (p3.1 - 128) * 64 +
                (p4.1 - 128) ∧
              (b - 240) * 262144 + (p2.1 - 128) * 4096 + (p3.1 - 128) * 64 + (p4.1 - 128)
                < 1114112 then
            some ((b - 240) * 262144 + (p2.1 - 128) * 4096 + (p3.1 - 128) * 64 +
              (p4.1 - 128), p4.2)
          else none
  else none

theorem readEsc_le {l : List Char} {x : Nat × List Char} (h : readEsc l = some x) :
    x.2.length + 3 = l.length := by
  rcases l with _ | ⟨a, _ | ⟨b, _ | ⟨c, rest⟩⟩⟩ <;> simp only [readEsc] at h
  · cases h
  · cases h
  · cases h
  · split at h
    · cases h
      simp
    · cases h

theorem decodeLead_le {b : Nat} {rest : List Char} {x : Nat × List Char}
    (h : decodeLead b rest = some x) : x.2.length ≤ rest.length := by
  rw [decodeLead] at h
  split at h
  · cases h; simp
  · split at h
    · cases h
    · split at h
      · rcases hr : readEsc rest with _ | ⟨b2, r2⟩ <;> simp only [hr, Option.bind] at h
        · cases h
        · split at h
          · cases h
            have := readEsc_le hr
            simp only at this ⊢
            omega
          · cases h
      · split at h
        · rcases hr : readEsc rest with _ | ⟨b2, r2⟩ <;> simp only [hr, Option.bind] at h
          · cases h
          · rcases hr2 : readEsc r2 with _ | ⟨b3, r3⟩ <;> simp only [hr2, Option.bind] at h
            · cases h
            · split at h
              · cases h
                have e1 := readEsc_le hr
                have e2 := readEsc_le hr2
                simp only at e1 e2 ⊢
                omega
              · cases h
        · split at h
          · rcases hr : readEsc rest with _ | ⟨b2, r2⟩ <;> simp only [hr, Option.bind] at h
            · cases h
            · rcases hr2 : readEsc r2 with _ | ⟨b3, r3⟩ <;>
                simp only [hr2, Option.bind] at h
              · cases h
              · rcases hr3 : readEsc r3 with _ | ⟨b4, r4⟩ <;>
                  simp only [hr3, Option.bind] at h
                · cases h
                · split at h
                  · cases h
                    have e1 := readEsc_le hr
                    have e2 := readEsc_le hr2
                    have e3 := readEsc_le hr3
                    simp only at e1 e2 e3 ⊢
                    omega
                  · cases h
          · cases h

/-- Model of ECMAScript `decodeURIComponent`: literal characters pass through;
a percent escape is decoded as UTF-8 via `decodeLead`, which consumes the
continuation escapes of a multi-byte lead (the JS builtin throws `URIError`
on malformed input, modelled `none`). -/
def decodeURIChars (l : List Char) : Option (List Char) :=
  match l with
  | [] => some []
  | c :: rest =>
    if c = '%' then
      match rest with
      | h1 :: h2 :: rest2 =>
        if isHexDigitChar h1 ∧ isHexDigitChar h2 then
          match hdl : decodeLead (16 * hexCharVal h1 + hexCharVal h2) rest2 with
          | some cr =>
            match decodeURIChars cr.2 with
            | some cs => some (Char.ofNat cr.1 :: cs)
            | none => none
          | none => none
        else none
      | _ => none
    else
      match decodeURIChars rest with
      | some cs => some (c :: cs)
      | none => none
termination_by l.length
decreasing_by
  · have := decodeLead_le hdl
    simp
    omega
  · simp

/-- `valueDecoder` (track.js lines 517-528): restore the base64 alphabet and
padding, `atob`, re-express every byte as a lowercase percent escape, and
`decodeURIComponent`.  `none` models the builtins throwing. -/
def valueDecoder (value : String) : Option String :=
  let base64 := value.data.map unwebsafeChar ++ padFor value.length
  match atobChars base64 with
  | none => none
  | some bytes => (decodeURIChars (bytes.flatMap escapeByteLower)).map String.mk

/-! ## Codec round-trip: supporting lemmas -/

theorem char_valid_nat (c : Char) :
    c.toNat < 55296 ∨ (57344 ≤ c.toNat ∧ c.toNat < 1114112) := c.valid

theorem char_toNat_lt (c : Char) : c.toNat < 1114112 := by
  rcases char_valid_nat c with h | h <;> omega

theorem toNat_ofNat_valid {n : Nat} (h : n.isValidChar) : (Char.ofNat n).toNat = n := by
  rw [Char.ofNat, dif_pos h]; rfl

theorem toNat_ofNat_small {n : Nat} (h : n < 55296) : (Char.ofNat n).toNat = n :=
  toNat_ofNat_valid (Or.inl h)

theorem utf8EncodeChar_lt (c : Char) : ∀ b ∈ utf8EncodeChar c, b < 256 := by
  have := char_toNat_lt c
  unfold utf8EncodeChar
  split
  · intro b hb; simp at hb; omega
  · split
    · intro b hb; simp at hb; rcases hb with h | h <;> omega
    · split
      · intro b hb; simp at hb
        rcases hb with h | h | h <;> (subst h; omega)
      · intro b hb; simp at hb
        rcases hb with h | h | h | h <;> (subst h; omega)

theorem utf8EncodeChar_ne_nil (c : Char) : utf8EncodeChar c ≠ [] := by
  unfold utf8EncodeChar
  split <;> try simp
  split <;> try simp
  split <;> simp

/-! Hex digit lemmas. -/

theorem isUpperHexDigit_hexUpper {d : Nat} (h : d < 16) :
    isUpperHexDigit (hexUpperChar d) = true := by
  interval_cases d <;> decide

theorem hexCharVal_hexUpper {d : Nat} (h : d < 16) :
    hexCharVal (hexUpperChar d) = d := by
  interval_cases d <;> decide

theorem isHexDigitChar_hexLower {d : Nat} (h : d < 16) :
    isHexDigitChar (hexLowerChar d) = true := by
  interval_cases d <;> decide

theorem hexCharVal_hexLower {d : Nat} (h : d < 16) :
    hexCharVal (hexLowerChar d) = d := by
  interval_cases d <;> decide

/-! Lemma A: collapsing the percent escapes recovers exactly the UTF-8 bytes. -/

theorem uriUnescaped_ascii {c : Char} (h : uriUnescaped c = true) :
    c.toNat < 128 ∧ c.toNat ≠ 37 := by
  simp only [uriUnescaped, decide_eq_true_eq, List.mem_cons, List.not_mem_nil, or_false] at h
  rcases h with h | h | h | h <;> omega

theorem percentToByteChars_escape {b : Nat} (hb : b < 256) (rest : List Char) :
    percentToByteChars (escapeByte b ++ rest) = Char.ofNat b :: percentToByteChars rest := by
  have h1 : b / 16 < 16 := by omega
  have h2 : b % 16 < 16 := by omega
  show percentToByteChars ('%' :: hexUpperChar (b / 16) :: hexUpperChar (b % 16) :: rest) = _
  rw [percentToByteChars.eq_2,
    if_pos ⟨rfl, isUpperHexDigit_hexUpper h1, isUpperHexDigit_hexUpper h2⟩,
    hexCharVal_hexUpper h1, hexCharVal_hexUpper h2,
    show 16 * (b / 16) + b % 16 = b from by omega]

theorem percentToByteChars_escapes (bs : List Nat) (hb : ∀ b ∈ bs, b < 256)
    (rest : List Char) :
    percentToByteChars (bs.flatMap escapeByte ++ rest)
      = bs.map Char.ofNat ++ percentToByteChars rest := by
  induction bs with
  | nil => simp
  | cons b bs ih =>
    rw [List.flatMap_cons, List.append_assoc,
      percentToByteChars_escape (hb b (by simp)), ih (fun x hx => hb x (by simp [hx]))]
    simp

theorem percentToByteChars_safe {c : Char} (h : uriUnescaped c = true) (rest : List Char) :
    percentToByteChars (c :: rest) = c :: percentToByteChars rest := by
  have hno : c ≠ '%' := by
    intro hc
    exact (uriUnescaped_ascii h).2 (by rw [hc]; rfl)
  rcases rest with _ | ⟨d, _ | ⟨e, rest'⟩⟩
  · simp [percentToByteChars]
  · simp [percentToByteChars]
  · rw [percentToByteChars.eq_2, if_neg (by intro hcon; exact hno hcon.1)]

theorem map_toNat_map_ofNat (bs : List Nat) (hb : ∀ b ∈ bs, b < 256) :
    (bs.map Char.ofNat).map Char.toNat = bs := by
  induction bs with
  | nil => rfl
  | cons b bs ih =>
    simp only [List.map_cons, List.cons.injEq]
    exact ⟨toNat_ofNat_small (by have := hb b (by simp); omega),
      ih fun x hx => hb x (by simp [hx])⟩

theorem utf8_ascii {c : Char} (h : c.toNat < 128) : utf8EncodeChar c = [c.toNat] := by
  simp [utf8EncodeChar, h]

theorem encodeBytes_eq (cs : List Char) :
    (percentToByteChars (encodeURIComponentChars cs)).map Char.toNat
      = cs.flatMap utf8EncodeChar := by
  induction cs with
  | nil => simp [encodeURIComponentChars, percentToByteChars]
  | cons c cs ih =>
    simp only [encodeURIComponentChars, List.flatMap_cons] at ih ⊢
    by_cases h : uriUnescaped c = true
    · rw [if_pos h, List.singleton_append, percentToByteChars_safe h, List.map_cons, ih,
        utf8_ascii (uriUnescaped_ascii h).1]
      rfl
    · rw [if_neg h, percentToByteChars_escapes _ (utf8EncodeChar_lt c), List.map_append,
        map_toNat_map_ofNat _ (utf8EncodeChar_lt c), ih]

/-! Lemma B: the websafe stripped base64 step round-trips. -/

/-- The base64 characters of `btoaChars` without the `=` padding (proof device). -/
def btoaCore : List Nat → List Char
  | [] => []
  | [a] => [b64Char (a / 4), b64Char (a % 4 * 16)]
  | [a, b] => [b64Char (a / 4), b64Char (a % 4 * 16 + b / 16), b64Char (b % 16 * 4)]
  | a :: b :: c :: rest =>
    b64Char (a / 4) :: b64Char (a % 4 * 16 + b / 16) ::
      b64Char (b % 16 * 4 + c / 64) :: b64Char (c % 64) :: btoaCore rest

/-- The `=` padding appended by `btoaChars` (proof device). -/
def padTail : List Nat → List Char
  | [] => []
  | [_] => ['=', '=']
  | [_, _] => ['=']
  | _ :: _ :: _ :: rest => padTail rest

theorem byteChunks_ind (P : List Nat → Prop) (h0 : P []) (h1 : ∀ a, P [a])
    (h2 : ∀ a b, P [a, b]) (h3 : ∀ a b c rest, P rest → P (a :: b :: c :: rest)) :
    ∀ bs, P bs := by
  have key : ∀ n bs, List.length bs ≤ n → P bs := by
    intro n
    induction n with
    | zero =>
      intro bs h
      cases bs with
      | nil => exact h0
      | cons a t => simp at h
    | succ n ih =>
      intro bs h
      rcases bs with _ | ⟨a, _ | ⟨b, _ | ⟨c, rest⟩⟩⟩
      · exact h0
      · exact h1 a
      · exact h2 a b
      · exact h3 a b c rest (ih rest (by simp at h ⊢; omega))
  exact fun bs => key bs.length bs le_rfl

theorem b64Char_facts {k : Nat} (h : k < 64) :
    b64Val (b64Char k) = some k ∧ b64Char k ≠ '=' ∧
      unwebsafeChar (websafeChar (b64Char k)) = b64Char k ∧
      websafeChar (b64Char k) ≠ '=' := by
  interval_cases k <;> refine ⟨by decide, by decide, by decide, by decide⟩

theorem btoaChars_eq (bs : List Nat) : btoaChars bs = btoaCore bs ++ padTail bs := by
  induction bs using byteChunks_ind with
  | h0 => rfl
  | h1 a => rfl
  | h2 a b => rfl
  | h3 a b c rest ih => simp [btoaChars, btoaCore, padTail, ih]

theorem btoaCore_mem {bs : List Nat} (hb : ∀ b ∈ bs, b < 256) :
    ∀ c ∈ btoaCore bs, ∃ k, k < 64 ∧ c = b64Char k := by
  induction bs using byteChunks_ind with
  | h0 => intro c hc; simp [btoaCore] at hc
  | h1 a =>
    have ha : a < 256 := hb a (by simp)
    intro c hc
    simp [btoaCore] at hc
    rcases hc with h | h <;> subst h
    · exact ⟨a / 4, by omega, rfl⟩
    · exact ⟨a % 4 * 16, by omega, rfl⟩
  | h2 a b =>
    have ha : a < 256 := hb a (by simp)
    have hbb : b < 256 := hb b (by simp)
    intro c hc
    simp [btoaCore] at hc
    rcases hc with h | h | h <;> subst h
    · exact ⟨a / 4, by omega, rfl⟩
    · exact ⟨a % 4 * 16 + b / 16, by omega, rfl⟩
    · exact ⟨b % 16 * 4, by omega, rfl⟩
  | h3 a b c rest ih =>
    have ha : a < 256 := hb a (by simp)
    have hbb : b < 256 := hb b (by simp)
    have hcc : c < 256 := hb c (by simp)
    intro x hx
    simp only [btoaCore, List.mem_cons] at hx
    rcases hx with h | h | h | h | h
    · exact ⟨a / 4, by omega, h⟩
    · exact ⟨a % 4 * 16 + b / 16, by omega, h⟩
    · exact ⟨b % 16 * 4 + c / 64, by omega, h⟩
    · exact ⟨c % 64, by omega, h⟩
    · exact ih (fun y hy => hb y (by simp [hy])) x h

theorem padTail_all_eq (bs : List Nat) : ∀ c ∈ padTail bs, c = '=' := by
  induction bs using byteChunks_ind with
  | h0 => simp [padTail]
  | h1 a => simp [padTail]
  | h2 a b => simp [padTail]
  | h3 a b c rest ih => simpa [padTail] using ih

theorem dropWhile_append_all {p : Char → Bool} (l1 l2 : List Char)
    (h : ∀ c ∈ l1, p c = true) :
    List.dropWhile p (l1 ++ l2) = List.dropWhile p l2 := by
  induction l1 with
  | nil => rfl
  | cons a t ih =>
    rw [List.cons_append, List.dropWhile_cons, if_pos (h a (by simp))]
    exact ih fun c hc => h c (by simp [hc])

theorem dropTrailingEq_of_no_eq (x pads : List Char) (hx : ∀ c ∈ x, c ≠ '=')
    (hp : ∀ c ∈ pads, c = '=') : dropTrailingEq (x ++ pads) = x := by
  unfold dropTrailingEq
  rw [List.reverse_append,
    dropWhile_append_all _ _ (fun c hc => by simp [hp c (by simpa using hc)])]
  cases hrev : x.reverse with
  | nil =>
    have : x = [] := by simpa using congrArg List.reverse hrev
    simp [this]
  | cons a t =>
    have ha : a ∈ x := by
      have : a ∈ x.reverse := by rw [hrev]; simp
      simpa using this
    rw [List.dropWhile_cons, if_neg (by simp [hx a ha]), ← hrev, List.reverse_reverse]

theorem btoaCore_length_mod (bs : List Nat) :
    padFor (btoaCore bs).length = padTail bs := by
  induction bs using byteChunks_ind with
  | h0 => rfl
  | h1 a => simp [btoaCore, padTail, padFor]
  | h2 a b => simp [btoaCore, padTail, padFor]
  | h3 a b c rest ih =>
    have hl : (btoaCore (a :: b :: c :: rest)).length = 4 + (btoaCore rest).length := by
      simp [btoaCore]; omega
    rw [hl, padTail, ← ih]
    unfold padFor
    congr 1
    omega

theorem encoder_strip (bs : List Nat) (hb : ∀ b ∈ bs, b < 256) :
    dropTrailingEq ((btoaChars bs).map websafeChar) = (btoaCore bs).map websafeChar := by
  rw [btoaChars_eq, List.map_append]
  refine dropTrailingEq_of_no_eq _ _ ?_ ?_
  · intro c hc
    rcases List.mem_map.mp hc with ⟨d, hd, rfl⟩
    rcases btoaCore_mem hb d hd with ⟨k, hk, rfl⟩
    exact (b64Char_facts hk).2.2.2
  · intro c hc
    rcases List.mem_map.mp hc with ⟨d, hd, rfl⟩
    rw [padTail_all_eq bs d hd]
    rfl

theorem decoder_restore (bs : List Nat) (hb : ∀ b ∈ bs, b < 256) :
    ((btoaCore bs).map websafeChar).map unwebsafeChar
        ++ padFor ((btoaCore bs).map websafeChar).length
      = btoaChars bs := by
  have h1 : ((btoaCore bs).map websafeChar).map unwebsafeChar = btoaCore bs := by
    rw [List.map_map]
    conv_rhs => rw [show btoaCore bs = (btoaCore bs).map id from by simp]
    refine List.map_congr_left ?_
    intro c hc
    rcases btoaCore_mem hb c hc with ⟨k, hk, rfl⟩
    exact (b64Char_facts hk).2.2.1
  rw [h1, List.length_map, btoaCore_length_mod, btoaChars_eq]

theorem atobChars_pad2 {x y : Char} {xv yv : Nat} (hx : b64Val x = some xv)
    (hy : b64Val y = some yv) :
    atobChars [x, y, '=', '='] = some [xv * 4 + yv / 16] := by
  unfold atobChars
  rw [hx, hy]
  simp

theorem atobChars_pad1 {x y z : Char} {xv yv zv : Nat} (hx : b64Val x = some xv)
    (hy : b64Val y = some yv) (hz : b64Val z = some zv) (hzne : z ≠ '=') :
    atobChars [x, y, z, '='] = some [xv * 4 + yv / 16, yv % 16 * 16 + zv / 4] := by
  unfold atobChars
  rw [hx, hy, hz]
  simp [hzne]

theorem atobChars_full {x y z w : Char} {xv yv zv wv : Nat} {rest : List Char}
    {tail : List Nat}
    (hx : b64Val x = some xv) (hy : b64Val y = some yv) (hz : b64Val z = some zv)
    (hw : b64Val w = some wv) (hzne : z ≠ '=') (hwne : w ≠ '=')
    (ht : atobChars rest = some tail) :
    atobChars (x :: y :: z :: w :: rest)
      = some ((xv * 4 + yv / 16) :: (yv % 16 * 16 + zv / 4) :: (zv % 4 * 64 + wv) :: tail) := by
  unfold atobChars
  rw [hx, hy, hz, hw, ht]
  simp [hzne, hwne]

theorem atobChars_btoaChars (bs : List Nat) (hb : ∀ b ∈ bs, b < 256) :
    atobChars (btoaChars bs) = some bs := by
  induction bs using byteChunks_ind with
  | h0 => rfl
  | h1 a =>
    have ha : a < 256 := hb a (by simp)
    have h1 : a / 4 < 64 := by omega
    have h2 : a % 4 * 16 < 64 := by omega
    show atobChars [b64Char (a / 4), b64Char (a % 4 * 16), '=', '='] = some [a]
    rw [atobChars_pad2 (b64Char_facts h1).1 (b64Char_facts h2).1]
    rw [show a / 4 * 4 + a % 4 * 16 / 16 = a from by omega]
  | h2 a b =>
    have ha : a < 256 := hb a (by simp)
    have hbb : b < 256 := hb b (by simp)
    have h1 : a / 4 < 64 := by omega
    have h2 : a % 4 * 16 + b / 16 < 64 := by omega
    have h3 : b % 16 * 4 < 64 := by omega
    show atobChars
        [b64Char (a / 4), b64Char (a % 4 * 16 + b / 16), b64Char (b % 16 * 4), '=']
      = some [a, b]
    rw [atobChars_pad1 (b64Char_facts h1).1 (b64Char_facts h2).1 (b64Char_facts h3).1
      (b64Char_facts h3).2.1]
    rw [show a / 4 * 4 + (a % 4 * 16 + b / 16) / 16 = a from by omega,
      show (a % 4 * 16 + b / 16) % 16 * 16 + b % 16 * 4 / 4 = b from by omega]
  | h3 a b c rest ih =>
    have ha : a < 256 := hb a (by simp)
    have hbb : b < 256 := hb b (by simp)
    have hcc : c < 256 := hb c (by simp)
    have h1 : a / 4 < 64 := by omega
    have h2 : a % 4 * 16 + b / 16 < 64 := by omega
    have h3 : b % 16 * 4 + c / 64 < 64 := by omega
    have h4 : c % 64 < 64 := by omega
    have ihr := ih fun y hy => hb y (by simp [hy])
    show atobChars (b64Char (a / 4) :: b64Char (a % 4 * 16 + b / 16) ::
        b64Char (b % 16 * 4 + c / 64) :: b64Char (c % 64) :: btoaChars rest)
      = some (a :: b :: c :: rest)
    rw [atobChars_full (b64Char_facts h1).1 (b64Char_facts h2).1 (b64Char_facts h3).1
      (b64Char_facts h4).1 (b64Char_facts h3).2.1 (b64Char_facts h4).2.1 ihr]
    rw [show a / 4 * 4 + (a % 4 * 16 + b / 16) / 16 = a from by omega,
      show (a % 4 * 16 + b / 16) % 16 * 16 + (b % 16 * 4 + c / 64) / 4 = b from by omega,
      show (b % 16 * 4 + c / 64) % 4 * 64 + c % 64 = c from by omega]

theorem readEsc_escape {b : Nat} (hb : b < 256) (t : List Char) :
    readEsc (escapeByteLower b ++ t) = some (b, t) := by
  have h1 : b / 16 < 16 := by omega
  have h2 : b % 16 < 16 := by omega
  show readEsc ('%' :: hexLowerChar (b / 16) :: hexLowerChar (b % 16) :: t) = _
  rw [readEsc, if_pos ⟨rfl, isHexDigitChar_hexLower h1, isHexDigitChar_hexLower h2⟩,
    hexCharVal_hexLower h1, hexCharVal_hexLower h2,
    show 16 * (b / 16) + b % 16 = b from by omega]

theorem decodeLead_ascii {b : Nat} (hb : b < 128) (t : List Char) :
    decodeLead b t = some (b, t) := by
  rw [decodeLead, if_pos hb]

theorem decodeLead_two {n : Nat} (hlo : 128 ≤ n) (hhi : n < 2048) (t : List Char) :
    decodeLead (192 + n / 64) (escapeByteLower (128 + n % 64) ++ t) = some (n, t) := by
  rw [decodeLead, if_neg (by omega), if_neg (by omega), if_pos (by omega),
    readEsc_escape (by omega), Option.some_bind, if_pos (by constructor <;> omega)]
  congr 2
  omega

theorem decodeURIChars_esc_step {b : Nat} (hb : b < 256) (t2 : List Char) :
    decodeURIChars (escapeByteLower b ++ t2)
      = (decodeLead b t2).bind fun cr =>
          (decodeURIChars cr.2).map fun cs => Char.ofNat cr.1 :: cs := by
  have h1 : b / 16 < 16 := by omega
  have h2 : b % 16 < 16 := by omega
  show decodeURIChars ('%' :: hexLowerChar (b / 16) :: hexLowerChar (b % 16) :: t2) = _
  rw [decodeURIChars]
  rw [if_pos rfl, if_pos ⟨isHexDigitChar_hexLower h1, isHexDigitChar_hexLower h2⟩,
    hexCharVal_hexLower h1, hexCharVal_hexLower h2,
    show 16 * (b / 16) + b % 16 = b from by omega]
  rcases hdl : decodeLead b t2 with _ | ⟨code, r⟩ <;>
    simp only [Option.some_bind, Option.none_bind]
  rcases hd : decodeURIChars r with _ | cs <;> simp [hd]

theorem decodeLead_three {n : Nat} (hlo : 2048 ≤ n) (hhi : n < 65536)
    (hs : n < 55296 ∨ 57344 ≤ n) (t : List Char) :
    decodeLead (224 + n / 4096)
        (escapeByteLower (128 + n / 64 % 64) ++ (escapeByteLower (128 + n % 64) ++ t))
      = some (n, t) := by
  rw [decodeLead, if_neg (by omega), if_neg (by omega), if_neg (by omega), if_pos (by omega),
    readEsc_escape (by omega), Option.some_bind, readEsc_escape (by omega), Option.some_bind]
  rw [show (224 + n / 4096 - 224) * 4096 + (128 + n / 64 % 64 - 128) * 64 +
      (128 + n % 64 - 128) = n from by omega]
  rw [if_pos (by refine ⟨by omega, by omega, by omega, by omega, by omega, hs⟩)]

theorem decodeLead_four {n : Nat} (hlo : 65536 ≤ n) (hhi : n < 1114112) (t : List Char) :
    decodeLead (240 + n / 262144)
        (escapeByteLower (128 + n / 4096 % 64) ++
          (escapeByteLower (128 + n / 64 % 64) ++ (escapeByteLower (128 + n % 64) ++ t)))
      = some (n, t) := by
  rw [decodeLead, if_neg (by omega), if_neg (by omega), if_neg (by omega), if_neg (by omega),
    if_pos (by omega), readEsc_escape (by omega), Option.some_bind,
    readEsc_escape (by omega), Option.some_bind, readEsc_escape (by omega), Option.some_bind]
  rw [show (240 + n / 262144 - 240) * 262144 + (128 + n / 4096 % 64 - 128) * 4096 +
      (128 + n / 64 % 64 - 128) * 64 + (128 + n % 64 - 128) = n from by omega]
  rw [if_pos (by refine ⟨by omega, by omega, by omega, by omega, by omega, by omega,
    by omega, by omega⟩)]

theorem decodeURIChars_utf8Char (c : Char) (t : List Char) :
    decodeURIChars ((utf8EncodeChar c).flatMap escapeByteLower ++ t)
      = (decodeURIChars t).map fun cs => c :: cs := by
  have hval := char_valid_nat c
  by_cases hA : c.toNat < 128
  · rw [utf8_ascii hA]
    rw [show ([c.toNat].flatMap escapeByteLower) = escapeByteLower c.toNat from by simp]
    rw [decodeURIChars_esc_step (by omega), decodeLead_ascii hA, Option.some_bind,
      Char.ofNat_toNat]
  · by_cases hB : c.toNat < 2048
    · rw [show utf8EncodeChar c = [192 + c.toNat / 64, 128 + c.toNat % 64] from by
        simp [utf8EncodeChar, hA, hB]]
      simp only [List.flatMap_cons, List.flatMap_nil, List.append_nil, List.append_assoc]
      rw [decodeURIChars_esc_step (by omega), decodeLead_two (by omega) hB,
        Option.some_bind, Char.ofNat_toNat]
    · by_cases hC : c.toNat < 65536
      · rw [show utf8EncodeChar c
            = [224 + c.toNat / 4096, 128 + c.toNat / 64 % 64, 128 + c.toNat % 64] from by
          simp [utf8EncodeChar, hA, hB, hC]]
        simp only [List.flatMap_cons, List.flatMap_nil, List.append_nil, List.append_assoc]
        rw [decodeURIChars_esc_step (by omega),
          decodeLead_three (by omega) hC (by omega), Option.some_bind, Char.ofNat_toNat]
      · rw [show utf8EncodeChar c
            = [240 + c.toNat / 262144, 128 + c.toNat / 4096 % 64, 128 + c.toNat / 64 % 64,
                128 + c.toNat % 64] from by
          simp [utf8EncodeChar, hA, hB, hC]]
        simp only [List.flatMap_cons, List.flatMap_nil, List.append_nil, List.append_assoc]
        rw [decodeURIChars_esc_step (by omega),
          decodeLead_four (by omega) (by omega), Option.some_bind, Char.ofNat_toNat]

theorem decodeURIChars_flatMap_utf8 (cs : List Char) :
    decodeURIChars ((cs.flatMap utf8EncodeChar).flatMap escapeByteLower) = some cs := by
  induction cs with
  | nil => simp [decodeURIChars]
  | cons c cs ih =>
    rw [List.flatMap_cons, List.flatMap_append, decodeURIChars_utf8Char, ih]
    rfl

theorem utf8Bytes_lt (v : String) : ∀ b ∈ v.data.flatMap utf8EncodeChar, b < 256 := by
  intro b hb
  rcases List.mem_flatMap.mp hb with ⟨c, _, hbc⟩
  exact utf8EncodeChar_lt c b hbc

theorem valueEncoder_eq_core (v : String) :
    valueEncoder v
      = String.mk ((btoaCore (v.data.flatMap utf8EncodeChar)).map websafeChar) := by
  show String.mk (dropTrailingEq ((btoaChars
      ((percentToByteChars (encodeURIComponentChars v.data)).map Char.toNat)).map websafeChar))
    = _
  rw [encodeBytes_eq, encoder_strip _ (utf8Bytes_lt v)]

/-- The codec round-trip, as a reusable lemma. -/
theorem codec_round_trip (v : String) : valueDecoder (valueEncoder v) = some v := by
  have hu := utf8Bytes_lt v
  rw [valueEncoder_eq_core]
  unfold valueDecoder
  simp only [String.length_mk]
  rw [decoder_restore _ hu, atobChars_btoaChars _ hu]
  show (decodeURIChars ((v.data.flatMap utf8EncodeChar).flatMap escapeByteLower)).map
      String.mk = some v
  rw [decodeURIChars_flatMap_utf8]
  rfl

/-- C1: for every string `v` — including the empty string, pure-ASCII strings
and strings containing multi-byte Unicode characters — decoding the encoded
value returns the original: `valueDecoder (valueEncoder v) = some v`. -/
theorem c1_codec_roundtrip (v : String) : valueDecoder (valueEncoder v) = some v :=
  codec_round_trip v

/-! ## JSON values, `JSON.stringify` and `JSON.parse`

The identity cookies persist small JSON objects (`JSON.stringify` at the
`setCookie` call sites, `JSON.parse` in `setupBrowserIdentity` /
`setupSessionIdentity`).  `JVal` models the JavaScript values flowing through
the agent; the parser models `JSON.parse` on the flat object/scalar shapes
this agent ever feeds it (it agrees with `JSON.parse` on every string this
development applies it to, and fails on non-JSON input just as the builtin
throws `SyntaxError`). -/

inductive JVal where
  | jnull : JVal
  | jnan : JVal
  | jnum : Nat → JVal
  | jstr : String → JVal
  | jarr : List JVal → JVal
  | jobj : List (String × JVal) → JVal

mutual

/-- Structural Boolean equality on `JVal`.  On the primitive values the agent
compares (strings, numbers, `null`) this is exactly JS strict equality `===`,
including `NaN === NaN` being false; reference equality on objects is not
exercised by the agent. -/
def jvalBeq : JVal → JVal → Bool
  | .jnull, .jnull => true
  | .jnum a, .jnum b => a == b
  | .jstr a, .jstr b => a == b
  | .jarr a, .jarr b => jvalListBeq a b
  | .jobj a, .jobj b => jvalFieldsBeq a b
  | _, _ => false

/-- Elementwise equality on arrays. -/
def jvalListBeq : List JVal → List JVal → Bool
  | [], [] => true
  | a :: as, b :: bs => jvalBeq a b && jvalListBeq as bs
  | _, _ => false

/-- Memberwise equality on objects. -/
def jvalFieldsBeq : List (String × JVal) → List (String × JVal) → Bool
  | [], [] => true
  | (k1, v1) :: as, (k2, v2) :: bs => k1 == k2 && jvalBeq v1 v2 && jvalFieldsBeq as bs
  | _, _ => false

end

/-- Decimal rendering of a natural number, the `ToString` of a nonnegative
integer JS number. -/
def natToStr (n : Nat) : String :=
  if n = 0 then "0"
  else String.mk ((Nat.digits 10 n).reverse.map fun d => Char.ofNat (48 + d))

/-- Opening brace character. -/
def lbrace : Char := Char.ofNat 123

/-- Closing brace character. -/
def rbrace : Char := Char.ofNat 125

/-- Comma-join a list of rendered pieces. -/
def joinComma : List String → String
  | [] => ""
  | [s] => s
  | s :: rest => s ++ "," ++ joinComma rest

mutual

/-- Model of `JSON.stringify` (strings are rendered without escapes, faithful
for every string this agent serializes; `NaN` serializes as `null` like the
builtin). -/
def jsonStringify : JVal → String
  | .jnull => "null"
  | .jnan => "null"
  | .jnum n => natToStr n
  | .jstr s => "\"" ++ s ++ "\""
  | .jarr xs => "[" ++ joinComma (jsonStringifyList xs) ++ "]"
  | .jobj fs => String.mk [lbrace] ++ joinComma (jsonStringifyFields fs) ++ String.mk [rbrace]

/-- Render each array element. -/
def jsonStringifyList : List JVal → List String
  | [] => []
  | v :: rest => jsonStringify v :: jsonStringifyList rest

/-- Render each `key:value` member. -/
def jsonStringifyFields : List (String × JVal) → List String
  | [] => []
  | (k, v) :: rest => ("\"" ++ k ++ "\":" ++ jsonStringify v) :: jsonStringifyFields rest

end

/-- Parse a run of decimal digits, most significant first, onto `acc`. -/
def parseDigitsAux : List Char → Nat → Nat × List Char
  | c :: rest, acc =>
    if c.isDigit then parseDigitsAux rest (acc * 10 + (c.toNat - 48)) else (acc, c :: rest)
  | [], acc => (acc, [])

/-- Parse the body of a string literal up to the closing quote (escape
sequences rejected: none ever occurs in this agent's payloads). -/
def parseStrAux : List Char → List Char → Option (String × List Char)
  | [], _ => none
  | c :: rest, acc =>
    if c = '"' then some (String.mk acc.reverse, rest)
    else if c = '\\' then none
    else parseStrAux rest (c :: acc)

/-- Parse a scalar JSON value: a string literal or a nonnegative integer. -/
def parseScalar : List Char → Option (JVal × List Char)
  | [] => none
  | c :: rest =>
    if c = '"' then (parseStrAux rest []).map fun sr => (.jstr sr.1, sr.2)
    else if c.isDigit then
      some (.jnum (parseDigitsAux rest (c.toNat - 48)).1, (parseDigitsAux rest (c.toNat - 48)).2)
    else none

/-- Parse one `"key":value` member. -/
def parseMember (l : List Char) : Option ((String × JVal) × List Char) :=
  match l with
  | '"' :: rest =>
    match parseStrAux rest [] with
    | some (key, r1) =>
      match r1 with
      | ':' :: r2 =>
        match parseScalar r2 with
        | some (v, r3) => some ((key, v), r3)
        | none => none
      | _ => none
    | none => none
  | _ => none

/-- Parse a comma-separated member list up to the closing brace.  The fuel is
an upper bound on the member count; `parseJson` passes the input length. -/
def parseMembersAux : Nat → List Char → Option (List (String × JVal) × List Char)
  | 0, _ => none
  | fuel + 1, l =>
    match parseMember l with
    | some (m, r) =>
      match r with
      | c :: r2 =>
        if c = ',' then
          match parseMembersAux fuel r2 with
          | some (ms, r3) => some (m :: ms, r3)
          | none => none
        else if c = rbrace then some ([m], r2)
        else none
      | [] => none
    | none => none

/-- Model of `JSON.parse` on the flat shapes this agent produces: an object of
scalar members, or a bare scalar.  Anything else — in particular every corrupt
cookie payload considered in this development — yields `none` (the builtin
throws a `SyntaxError`). -/
def parseJson (s : String) : Option JVal :=
  match s.data with
  | [] => none
  | c :: rest =>
    if c = lbrace then
      match rest with
      | d :: _ =>
        if d = rbrace then (if rest.length = 1 then some (.jobj []) else none)
        else
          match parseMembersAux (rest.length + 1) rest with
          | some (ms, r) => if r = [] then some (.jobj ms) else none
          | none => none
      | [] => none
    else
      match parseScalar s.data with
      | some (v, r) => if r = [] then some v else none
      | none => none

/-- JS property access `obj.key`: `none` models `undefined` (including access
on non-objects after `JSON.parse` of a scalar). -/
def jGet (v : JVal) (key : String) : Option JVal :=
  match v with
  | .jobj fs => fs.lookup key
  | _ => none

/-! ## Round-trip of the identity-cookie payloads through the JSON model -/

/-- Whether the first character is a decimal digit (used to delimit number
parses in the lemmas below). -/
def headIsDigit : List Char → Bool
  | c :: _ => c.isDigit
  | [] => false

theorem dChar_isDigit {d : Nat} (h : d < 10) : (Char.ofNat (48 + d)).isDigit = true := by
  interval_cases d <;> decide

theorem dChar_ne_quote {d : Nat} (h : d < 10) : Char.ofNat (48 + d) ≠ '"' := by
  interval_cases d <;> decide

theorem dChar_sub {d : Nat} (h : d < 10) : (Char.ofNat (48 + d)).toNat - 48 = d := by
  interval_cases d <;> decide

theorem parseDigitsAux_stop (rest : List Char) (hrest : headIsDigit rest = false)
    (acc : Nat) : parseDigitsAux rest acc = (acc, rest) := by
  cases rest with
  | nil => rfl
  | cons c r =>
    simp only [headIsDigit] at hrest
    simp [parseDigitsAux, hrest]

theorem parseDigitsAux_run (ds : List Nat) (hds : ∀ d ∈ ds, d < 10) (rest : List Char)
    (hrest : headIsDigit rest = false) (acc : Nat) :
    parseDigitsAux ((ds.map fun d => Char.ofNat (48 + d)) ++ rest) acc
      = (ds.foldl (fun a d => a * 10 + d) acc, rest) := by
  induction ds generalizing acc with
  | nil =>
    simpa using parseDigitsAux_stop rest hrest acc
  | cons d ds ih =>
    have hd : d < 10 := hds d (by simp)
    simp only [List.map_cons, List.cons_append, parseDigitsAux]
    rw [if_pos (dChar_isDigit hd), dChar_sub hd, List.foldl_cons]
    exact ih (fun x hx => hds x (by simp [hx])) (acc * 10 + d)

theorem foldr_digits_ofDigits (L : List Nat) :
    L.foldr (fun d a => a * 10 + d) 0 = Nat.ofDigits 10 L := by
  induction L with
  | nil => rfl
  | cons d L ih =>
    rw [List.foldr_cons, ih, Nat.ofDigits_cons]
    omega

theorem natToStr_data_pos {n : Nat} (h : n ≠ 0) :
    (natToStr n).data = (Nat.digits 10 n).reverse.map fun d => Char.ofNat (48 + d) := by
  unfold natToStr
  rw [if_neg h]

theorem parseScalar_nat (n : Nat) (rest : List Char) (hrest : headIsDigit rest = false) :
    parseScalar ((natToStr n).data ++ rest) = some (.jnum n, rest) := by
  rcases Nat.eq_zero_or_pos n with hn | hn
  · subst hn
    show parseScalar ('0' :: rest) = some (.jnum 0, rest)
    simp only [parseScalar]
    rw [if_neg (by decide), if_pos (by decide), parseDigitsAux_stop rest hrest]
    rfl
  · have hne : Nat.digits 10 n ≠ [] := Nat.digits_ne_nil_iff_ne_zero.mpr (by omega)
    rw [natToStr_data_pos (by omega)]
    rcases hL : (Nat.digits 10 n).reverse with _ | ⟨d0, L'⟩
    · exact absurd (by simpa using congrArg List.reverse hL) hne
    · have hmem : ∀ d ∈ d0 :: L', d < 10 := by
        intro d hd
        have hdr : d ∈ Nat.digits 10 n := by
          have hm : d ∈ (Nat.digits 10 n).reverse := by rw [hL]; exact hd
          simpa using hm
        exact Nat.digits_lt_base (by omega) hdr
      have hd0 : d0 < 10 := hmem d0 (by simp)
      simp only [List.map_cons, List.cons_append, parseScalar]
      rw [if_neg (dChar_ne_quote hd0), if_pos (dChar_isDigit hd0), dChar_sub hd0,
        parseDigitsAux_run L' (fun x hx => hmem x (by simp [hx])) rest hrest]
      have hfold : L'.foldl (fun a d => a * 10 + d) d0 = n := by
        have h1 : (d0 :: L').foldl (fun a d => a * 10 + d) 0 = n := by
          rw [← hL, List.foldl_reverse]
          have h2 : (Nat.digits 10 n).foldr (fun x y => y * 10 + x) 0
              = (Nat.digits 10 n).foldr (fun d a => a * 10 + d) 0 := rfl
          rw [h2, foldr_digits_ofDigits, Nat.ofDigits_digits]
        simpa using h1
      rw [hfold]

theorem parseStrAux_run (kcs : List Char) (hk : ∀ c ∈ kcs, c ≠ '"' ∧ c ≠ '\\')
    (tail : List Char) (acc : List Char) :
    parseStrAux (kcs ++ '"' :: tail) acc = some (String.mk (acc.reverse ++ kcs), tail) := by
  induction kcs generalizing acc with
  | nil => simp [parseStrAux]
  | cons c kcs ih =>
    have hc := hk c (by simp)
    simp only [List.cons_append, parseStrAux]
    rw [if_neg hc.1, if_neg hc.2]
    simpa using ih (fun x hx => hk x (by simp [hx])) (c :: acc)

theorem parseMember_key_nat (kcs : List Char) (hk : ∀ c ∈ kcs, c ≠ '"' ∧ c ≠ '\\')
    (n : Nat) (tail : List Char) (htail : headIsDigit tail = false) :
    parseMember ('"' :: (kcs ++ '"' :: ':' :: ((natToStr n).data ++ tail)))
      = some ((String.mk kcs, .jnum n), tail) := by
  show (match parseStrAux (kcs ++ '"' :: ':' :: ((natToStr n).data ++ tail)) [] with
    | some (key, r1) =>
      match r1 with
      | ':' :: r2 =>
        match parseScalar r2 with
        | some (v, r3) => some ((key, v), r3)
        | none => none
      | _ => none
    | none => none) = some ((String.mk kcs, .jnum n), tail)
  rw [parseStrAux_run kcs hk _ []]
  show (match parseScalar ((natToStr n).data ++ tail) with
    | some (v, r3) => some ((String.mk ([].reverse ++ kcs), v), r3)
    | none => none) = _
  rw [parseScalar_nat n tail htail]
  simp

/-- The persisted browser-identity payload object: fields `bid`, `ts`. -/
def browserPayload (bid ts : Nat) : JVal := .jobj [("bid", .jnum bid), ("ts", .jnum ts)]

/-- The persisted session-identity payload object: fields `sid`, `svc`, `ts`. -/
def sessionPayload (sid svc ts : Nat) : JVal :=
  .jobj [("sid", .jnum sid), ("svc", .jnum svc), ("ts", .jnum ts)]

theorem jsonStringify_browser (bid ts : Nat) :
    (jsonStringify (browserPayload bid ts)).data
      = lbrace :: '"' :: 'b' :: 'i' :: 'd' :: '"' :: ':' ::
          ((natToStr bid).data ++ ',' :: '"' :: 't' :: 's' :: '"' :: ':' ::
            ((natToStr ts).data ++ [rbrace])) := by
  show ((String.mk [lbrace] ++ joinComma
      ["\"" ++ "bid" ++ "\":" ++ natToStr bid, "\"" ++ "ts" ++ "\":" ++ natToStr ts]
      ++ String.mk [rbrace]).data) = _
  simp [joinComma, String.data_append]

theorem parseMembersAux_browser (fuel bid ts : Nat) :
    parseMembersAux (fuel + 2)
        ('"' :: 'b' :: 'i' :: 'd' :: '"' :: ':' ::
          ((natToStr bid).data ++ ',' :: '"' :: 't' :: 's' :: '"' :: ':' ::
            ((natToStr ts).data ++ [rbrace])))
      = some ([("bid", .jnum bid), ("ts", .jnum ts)], []) := by
  have hm1 : parseMember ('"' :: 'b' :: 'i' :: 'd' :: '"' :: ':' ::
        ((natToStr bid).data ++ ',' :: '"' :: 't' :: 's' :: '"' :: ':' ::
          ((natToStr ts).data ++ [rbrace])))
      = some (("bid", .jnum bid),
          ',' :: '"' :: 't' :: 's' :: '"' :: ':' :: ((natToStr ts).data ++ [rbrace])) := by
    simpa using parseMember_key_nat ['b', 'i', 'd'] (by decide) bid
      (',' :: '"' :: 't' :: 's' :: '"' :: ':' :: ((natToStr ts).data ++ [rbrace])) (by rfl)
  have hm2 : parseMember ('"' :: 't' :: 's' :: '"' :: ':' :: ((natToStr ts).data ++ [rbrace]))
      = some (("ts", .jnum ts), [rbrace]) := by
    simpa using parseMember_key_nat ['t', 's'] (by decide) ts [rbrace] (by decide)
  show parseMembersAux (fuel + 1 + 1) _ = _
  rw [parseMembersAux, hm1]
  dsimp only
  rw [if_pos (show (',' : Char) = ',' from rfl)]
  rw [parseMembersAux, hm2]
  dsimp only
  rw [if_neg (show ¬(rbrace = ',') from by decide), if_pos (show rbrace = rbrace from rfl)]


theorem parseJson_browser (bid ts : Nat) :
    parseJson (jsonStringify (browserPayload bid ts)) = some (browserPayload bid ts) := by
  unfold parseJson
  rw [jsonStringify_browser]
  dsimp only
  rw [if_pos (show lbrace = lbrace from rfl)]
  rw [if_neg (show ¬(('"' : Char) = rbrace) from by decide)]
  rw [show ('"' :: 'b' :: 'i' :: 'd' :: '"' :: ':' ::
        ((natToStr bid).data ++ ',' :: '"' :: 't' :: 's' :: '"' :: ':' ::
          ((natToStr ts).data ++ [rbrace]))).length + 1
      = ('b' :: 'i' :: 'd' :: '"' :: ':' ::
          ((natToStr bid).data ++ ',' :: '"' :: 't' :: 's' :: '"' :: ':' ::
            ((natToStr ts).data ++ [rbrace]))).length + 2 from by simp]
  rw [parseMembersAux_browser]
  dsimp only
  rw [if_pos (show ([] : List Char) = [] from rfl)]
  rfl

theorem jsonStringify_session (sid svc ts : Nat) :
    (jsonStringify (sessionPayload sid svc ts)).data
      = lbrace :: '"' :: 's' :: 'i' :: 'd' :: '"' :: ':' ::
          ((natToStr sid).data ++ ',' :: '"' :: 's' :: 'v' :: 'c' :: '"' :: ':' ::
            ((natToStr svc).data ++ ',' :: '"' :: 't' :: 's' :: '"' :: ':' ::
              ((natToStr ts).data ++ [rbrace]))) := by
  show ((String.mk [lbrace] ++ joinComma
      ["\"" ++ "sid" ++ "\":" ++ natToStr sid, "\"" ++ "svc" ++ "\":" ++ natToStr svc,
        "\"" ++ "ts" ++ "\":" ++ natToStr ts]
      ++ String.mk [rbrace]).data) = _
  simp [joinComma, String.data_append]

theorem parseMembersAux_session (fuel sid svc ts : Nat) :
    parseMembersAux (fuel + 3)
        ('"' :: 's' :: 'i' :: 'd' :: '"' :: ':' ::
          ((natToStr sid).data ++ ',' :: '"' :: 's' :: 'v' :: 'c' :: '"' :: ':' ::
            ((natToStr svc).data ++ ',' :: '"' :: 't' :: 's' :: '"' :: ':' ::
              ((natToStr ts).data ++ [rbrace]))))
      = some ([("sid", .jnum sid), ("svc", .jnum svc), ("ts", .jnum ts)], []) := by
  have hm1 : parseMember ('"' :: 's' :: 'i' :: 'd' :: '"' :: ':' ::
        ((natToStr sid).data ++ ',' :: '"' :: 's' :: 'v' :: 'c' :: '"' :: ':' ::
          ((natToStr svc).data ++ ',' :: '"' :: 't' :: 's' :: '"' :: ':' ::
            ((natToStr ts).data ++ [rbrace]))))
      = some (("sid", .jnum sid),
          ',' :: '"' :: 's' :: 'v' :: 'c' :: '"' :: ':' ::
            ((natToStr svc).data ++ ',' :: '"' :: 't' :: 's' :: '"' :: ':' ::
              ((natToStr ts).data ++ [rbrace]))) := by
    simpa using parseMember_key_nat ['s', 'i', 'd'] (by decide) sid
      (',' :: '"' :: 's' :: 'v' :: 'c' :: '"' :: ':' ::
        ((natToStr svc).data ++ ',' :: '"' :: 't' :: 's' :: '"' :: ':' ::
          ((natToStr ts).data ++ [rbrace]))) (by rfl)
  have hm2 : parseMember ('"' :: 's' :: 'v' :: 'c' :: '"' :: ':' ::
        ((natToStr svc).data ++ ',' :: '"' :: 't' :: 's' :: '"' :: ':' ::
          ((natToStr ts).data ++ [rbrace])))
      = some (("svc", .jnum svc),
          ',' :: '"' :: 't' :: 's' :: '"' :: ':' :: ((natToStr ts).data ++ [rbrace])) := by
    simpa using parseMember_key_nat ['s', 'v', 'c'] (by decide) svc
      (',' :: '"' :: 't' :: 's' :: '"' :: ':' :: ((natToStr ts).data ++ [rbrace])) (by rfl)
  have hm3 : parseMember ('"' :: 't' :: 's' :: '"' :: ':' :: ((natToStr ts).data ++ [rbrace]))
      = some (("ts", .jnum ts), [rbrace]) := by
    simpa using parseMember_key_nat ['t', 's'] (by decide) ts [rbrace] (by decide)
  show parseMembersAux (fuel + 2 + 1) _ = _
  rw [parseMembersAux, hm1]
  dsimp only
  rw [if_pos (show (',' : Char) = ',' from rfl)]
  rw [show (fuel + 2 : Nat) = fuel + 1 + 1 from rfl, parseMembersAux, hm2]
  dsimp only
  rw [if_pos (show (',' : Char) = ',' from rfl)]
  rw [parseMembersAux, hm3]
  dsimp only
  rw [if_neg (show ¬(rbrace = ',') from by decide), if_pos (show rbrace = rbrace from rfl)]

theorem parseJson_session (sid svc ts : Nat) :
    parseJson (jsonStringify (sessionPayload sid svc ts))
      = some (sessionPayload sid svc ts) := by
  unfold parseJson
  rw [jsonStringify_session]
  dsimp only
  rw [if_pos (show lbrace = lbrace from rfl)]
  rw [if_neg (show ¬(('"' : Char) = rbrace) from by decide)]
  rw [show ('"' :: 's' :: 'i' :: 'd' :: '"' :: ':' ::
        ((natToStr sid).data ++ ',' :: '"' :: 's' :: 'v' :: 'c' :: '"' :: ':' ::
          ((natToStr svc).data ++ ',' :: '"' :: 't' :: 's' :: '"' :: ':' ::
            ((natToStr ts).data ++ [rbrace])))).length + 1
      = ('i' :: 'd' :: '"' :: ':' ::
          ((natToStr sid).data ++ ',' :: '"' :: 's' :: 'v' :: 'c' :: '"' :: ':' ::
            ((natToStr svc).data ++ ',' :: '"' :: 't' :: 's' :: '"' :: ':' ::
              ((natToStr ts).data ++ [rbrace])))).length + 3 from by simp]
  rw [parseMembersAux_session]
  dsimp only
  rw [if_pos (show ([] : List Char) = [] from rfl)]
  rfl

/-! ## Runtime state and the agent's operations (track.js lines 61-573)

The mutable globals (`runtimeInfo`, `document.cookie`, the beacon transport,
`console.error`, `Math.random`, timers) are collected into one state record
`St`; each agent function becomes a state transformer.  JS exceptions are
modelled by pairing the resulting state with an optional `JSErr`. -/

/-- Ambient platform signals, fixed for a page load. `doNotTrack` models the
outcome of the DNT probe documented at track.js line 136 (`navigator.doNotTrack
=== '1'`; the shipped revision stubs the assignment to `false` with a TODO to
re-enable the probe).  `now` is the wall clock read by `new Date()`. -/
structure Env where
  hasSendBeacon : Bool
  cookieEnabled : Option Bool
  secureTransport : Bool
  doNotTrack : Bool
  title : String
  url : String
  now : Nat

/-- One assignment to `document.cookie` as performed by `setCookie`: the
prefixed name, the encoded value, the optional `expires` attribute (absolute
milliseconds), `path=/`, and the conditional `secure` attribute. -/
structure CookieWrite where
  name : String
  value : String
  expiresAt : Option Int
  path : String
  secure : Bool

/-- The JavaScript exceptions the agent can raise. -/
inductive JSErr where
  | syntaxError : String → JSErr
  | referenceError : String → JSErr
  | uriError : JSErr
deriving DecidableEq, Repr

/-- The page's mutable state: the `runtimeInfo` globals, the browser cookie
jar (name to stored raw value; expiry at write time is applied immediately,
the store's later expirations are outside the agent), the log of cookie
writes, the beacons handed to `navigator.sendBeacon` (endpoint and structured
payload), the `console.error` log, and an oracle stream for `Math.random`. -/
structure St where
  env : Env
  clock : Nat
  cookiesSupported : Option Bool
  dntDetected : Option Bool
  useSecureCookie : Option Bool
  browserFirstSeen : Option JVal
  browserID : Option JVal
  sessionFirstSeen : Option JVal
  sessionID : Option JVal
  sessionViewCount : Option JVal
  dataQueue : List JVal
  queueTimer : Option Nat
  nextTimerId : Nat
  cookies : List (String × String)
  cookieWrites : List CookieWrite
  sentBeacons : List (String × JVal)
  errorLog : List String
  randStream : List Nat

/-- `config.cookieBrowserIDName`. -/
def cookieBrowserIDName : String := "b"

/-- `config.cookieBrowserExpiration`: ten days in seconds. -/
def cookieBrowserExpiration : Int := 60 * 60 * 24 * 10

/-- `config.cookiePrefix` (renamed: the original field name is reserved here). -/
def cookiePfx : String := "@s_"

/-- `config.cookieSessionIDName`. -/
def cookieSessionIDName : String := "s"

/-- `config.cookieSessionExpiration`: two hours in seconds. -/
def cookieSessionExpiration : Int := 60 * 60 * 2

/-- `config.cookieTestName`. -/
def cookieTestName : String := "chk"

/-- `config.dataReportInterval` (seconds). -/
def dataReportInterval : Nat := 30

/-- `config.errorEndPoint`. -/
def errorEndPoint : String := "http://127.0.0.1:9292/t/1/err"

/-- `config.trackingEndPoint`. -/
def trackingEndPoint : String := "http://127.0.0.1:9292/t/1/ana"

/-- `ANALYTIC_TYPE.VIEW_START`. -/
def analyticTypeViewStart : Nat := 0

/-- `ANALYTIC_TYPE.VIEW_END`. -/
def analyticTypeViewEnd : Nat := 1

/-- `ANALYTIC_TYPE.VIEW_PERFORMANCE`. -/
def analyticTypeViewPerformance : Nat := 2

/-- `cookieName`: the cookie name with the global prefix. -/
def cookieName (name : String) : String := cookiePfx ++ name

/-- JS truthiness of a Bool-or-null runtime flag (`null` is falsy). -/
def optTrue (b : Option Bool) : Bool := b == some true

/-- JS truthiness of the optional numeric `secondsToExpiration` argument:
an omitted argument (`undefined`) and `0` are falsy, every other number —
negative ones included — is truthy. -/
def jsTruthyNum : Option Int → Bool
  | none => false
  | some v => v != 0

/-- `randomId`: `Math.floor(Math.random() * Math.pow(2, 34))`, drawing
`Math.random` from the oracle stream (values reduced into the 34-bit range
the expression produces). -/
def randomId (st : St) : Nat × St :=
  (st.randStream.headD 0 % 2 ^ 34, { st with randStream := st.randStream.tail })

/-- Browser cookie-store write: replace any entry with the same name. -/
def jarUpsert (jar : List (String × String)) (name val : String) :
    List (String × String) :=
  jar.filter (fun p => p.1 != name) ++ [(name, val)]

/-- Browser cookie-store deletion (an expired write removes the entry). -/
def jarDelete (jar : List (String × String)) (name : String) : List (String × String) :=
  jar.filter (fun p => p.1 != name)

/-- Browser cookie-store lookup. -/
def jarLookup (jar : List (String × String)) (name : String) : Option String :=
  (jar.find? (fun p => p.1 == name)).map (fun p => p.2)

/-- JS `ToString` as applied by `valueEncoder`'s `encodeURIComponent(value)`
coercion.  The agent only ever passes strings and (in the cookie probe) a
number; arrays and plain objects are never stringified into cookies, so their
object form stands in. -/
def jsToString : JVal → String
  | .jnull => "null"
  | .jnan => "NaN"
  | .jnum n => natToStr n
  | .jstr s => s
  | .jarr _ => "[object Array]"
  | .jobj _ => "[object Object]"

/-- `setCookie` (track.js lines 370-384): no-op when `cookiesSupported` is
exactly `false`; otherwise compute the optional expiration instant
(`new Date()` plus the window — note `if (secondsToExpiration)` is plain JS
truthiness) and assign the attribute string to `document.cookie`, recorded as
a structured `CookieWrite` and applied to the jar. -/
def setCookie (name : String) (value : JVal) (secondsToExpiration : Option Int)
    (st : St) : St :=
  if st.cookiesSupported == some false then st
  else
    let expirationTime : Option Int :=
      if jsTruthyNum secondsToExpiration then
        some ((st.env.now : Int) + secondsToExpiration.getD 0 * 1000)
      else none
    let enc := valueEncoder (jsToString value)
    let w : CookieWrite :=
      { name := cookieName name, value := enc, expiresAt := expirationTime,
        path := "/", secure := optTrue st.useSecureCookie }
    let jar :=
      match expirationTime with
      | some t =>
        if t ≤ (st.env.now : Int) then jarDelete st.cookies (cookieName name)
        else jarUpsert st.cookies (cookieName name) enc
      | none => jarUpsert st.cookies (cookieName name) enc
    { st with cookieWrites := st.cookieWrites ++ [w], cookies := jar }

/-- `deleteCookie` (track.js lines 123-125): overwrite with an empty value
and a far-past expiration. -/
def deleteCookie (name : String) (st : St) : St :=
  setCookie name (.jstr "") (some (-2592000)) st

/-- `getCookie` (track.js lines 178-194): `null` when cookies are unsupported
or absent; otherwise decode the stored raw value.  The capture group `(.+)` of
the cookie regex requires a non-empty value, so an empty stored value reads as
absent.  A decoder failure is the `URIError` that `decodeURIComponent` throws.
The duplicate-name edge case cannot arise: the jar keeps names unique. -/
def getCookie (name : String) (st : St) : Except JSErr (Option String) :=
  if st.cookiesSupported == some false then .ok none
  else
    match jarLookup st.cookies (cookieName name) with
    | none => .ok none
    | some raw =>
      if raw = "" then .ok none
      else
        match valueDecoder raw with
        | some v => .ok (some v)
        | none => .error .uriError

/-- Message text of an exception (engine-specific in reality; fixed renderings
here). -/
def jsErrMessage : JSErr → String
  | .syntaxError m => m
  | .referenceError n => n ++ " is not defined"
  | .uriError => "URI malformed"

/-- The error envelope `errorHandler` submits: message and stack only (the
stack is opaque to this model). -/
def errEnvelope (e : JSErr) : JVal :=
  .jobj [("msg", .jstr (jsErrMessage e)), ("stack", .jstr "")]

/-- `errorHandler` (track.js lines 150-157): log locally, then, only if the
beacon transport exists, fire one envelope at the error endpoint. -/
def errorHandler (e : JSErr) (st : St) : St :=
  let st1 := { st with errorLog := st.errorLog ++ [jsErrMessage e] }
  if st1.env.hasSendBeacon then
    { st1 with sentBeacons := st1.sentBeacons ++ [(errorEndPoint, errEnvelope e)] }
  else st1

/-- A `null`-initialized runtime field read into a JS expression. -/
def jOfOpt (o : Option JVal) : JVal := o.getD .jnull

/-- The tracking envelope `immediateBeaconSend` builds: browser id, session
id, session view count, the queued events in order, and the shared clock. -/
def dataPacket (st : St) : JVal :=
  .jobj [("bid", jOfOpt st.browserID), ("sid", jOfOpt st.sessionID),
    ("svc", jOfOpt st.sessionViewCount), ("data", .jarr st.dataQueue),
    ("ts", .jnum st.clock)]

/-- `immediateBeaconSend` (track.js lines 200-237): bail out without touching
anything when `navigator.sendBeacon` is missing or the queue is empty;
otherwise build the envelope from the current queue, clear the queue, disarm
the timer if armed, and submit the envelope to the tracking endpoint. -/
def immediateBeaconSend (st : St) : St :=
  if !st.env.hasSendBeacon then st
  else if st.dataQueue.length = 0 then st
  else
    let dataPkt := dataPacket st
    let st1 := { st with dataQueue := [] }
    let st2 :=
      match st1.queueTimer with
      | some _ => { st1 with queueTimer := none }
      | none => st1
    { st2 with sentBeacons := st2.sentBeacons ++ [(trackingEndPoint, dataPkt)] }

/-- `queueData` (track.js lines 243-249): append to the queue and arm the
interval timer when none is armed (timer handles modelled by a counter). -/
def queueData (data : JVal) (st : St) : St :=
  let st1 := { st with dataQueue := st.dataQueue ++ [data] }
  match st1.queueTimer with
  | none => { st1 with queueTimer := some st1.nextTimerId,
                       nextTimerId := st1.nextTimerId + 1 }
  | some _ => st1

/-- JS strict equality against a possibly-`undefined` left operand. -/
def jsStrictEqOpt : Option JVal → JVal → Bool
  | some x, y => jvalBeq x y
  | none, _ => false

/-- `queuePerformanceEntry` (track.js lines 255-273).  The
`JSON.parse(JSON.stringify(entry))` normalization is the identity on the
plain record the entry parameter already models.  Resource entries naming the
analytics endpoints are dropped (the `==` against the tracking endpoint and
`===` against the error endpoint agree on strings); everything else is
queued with the shared clock and the performance discriminator. -/
def queuePerformanceEntry (entry : JVal) (st : St) : St :=
  let perfEntry := entry
  if jsStrictEqOpt (jGet perfEntry "entryType") (.jstr "resource") &&
      (jsStrictEqOpt (jGet perfEntry "name") (.jstr errorEndPoint) ||
        jsStrictEqOpt (jGet perfEntry "name") (.jstr trackingEndPoint)) then st
  else
    queueData (.jobj [("ts", .jnum st.clock), ("type", .jnum analyticTypeViewPerformance),
      ("perfEntry", perfEntry)]) st

/-- `reportPageView` (track.js lines 346-359): push the view-start event
directly onto the queue (no timer arming) and flush immediately. -/
def reportPageView (st : St) : St :=
  immediateBeaconSend
    { st with dataQueue := st.dataQueue ++
        [.jobj [("bfs", jOfOpt st.browserFirstSeen), ("sfs", jOfOpt st.sessionFirstSeen),
          ("title", .jstr st.env.title), ("url", .jstr st.env.url),
          ("ts", .jnum st.clock), ("type", .jnum analyticTypeViewStart)]] }

/-- `unloadHandler` (track.js lines 501-508): push the view-end event and
flush. -/
def unloadHandler (st : St) : St :=
  immediateBeaconSend
    { st with dataQueue := st.dataQueue ++
        [.jobj [("ts", .jnum st.clock), ("type", .jnum analyticTypeViewEnd)]] }

/-- `testCookieSupport` (track.js lines 479-495): `false` outright under DNT;
else defer to `navigator.cookieEnabled` when defined; else probe with a
throwaway cookie whose value is the *number* `randomId()` and compare the
read-back (a string or `null`) against it with `===`.  Returns the computed
value, the resulting state, and a possible exception. -/
def testCookieSupport (st : St) : Option Bool × St × Option JSErr :=
  if optTrue st.dntDetected then (some false, st, none)
  else
    match st.env.cookieEnabled with
    | some b => (some b, st, none)
    | none =>
      let (testVal, st1) := randomId st
      let st2 := setCookie cookieTestName (.jnum testVal) none st1
      match getCookie cookieTestName st2 with
      | .error e => (none, st2, some e)
      | .ok got =>
        let cookieSupport := jsStrictEqOpt (got.map .jstr) (.jnum testVal)
        (some cookieSupport, deleteCookie cookieTestName st2, none)

/-- `detectRuntimeConfig` (track.js lines 131-142): capture the clock, resolve
DNT and the secure flag, then — after DNT — cookie support. -/
def detectRuntimeConfig (st : St) : St × Option JSErr :=
  let st1 := { st with clock := st.env.now }
  let st2 := { st1 with dntDetected := some st.env.doNotTrack,
                        useSecureCookie := some st.env.secureTransport }
  match testCookieSupport st2 with
  | (some b, st3, none) => ({ st3 with cookiesSupported := some b }, none)
  | (_, st3, some e) => (st3, some e)
  | (none, st3, none) => (st3, none)

/-- The JS expression `runtimeInfo.sessionViewCount + 1` over whatever value
the field holds: numbers increment, strings concatenate, `null` coerces to
`0`, `undefined` and `NaN` give `NaN`. -/
def jsPlusOne : Option JVal → JVal
  | some (.jnum n) => .jnum (n + 1)
  | some (.jstr s) => .jstr (s ++ "1")
  | some .jnull => .jnum 1
  | some .jnan => .jnan
  | some (.jarr xs) => .jstr (jsToString (.jarr xs) ++ "1")
  | some (.jobj fs) => .jstr (jsToString (.jobj fs) ++ "1")
  | none => .jnan

/-- The common tail of `setupSessionIdentity` (track.js lines 460-470):
increment the view count, then persist the session payload with the session
validity window. -/
def finishSession (st : St) : St × Option JSErr :=
  let st1 := { st with sessionViewCount := some (jsPlusOne st.sessionViewCount) }
  (setCookie cookieSessionIDName
    (.jstr (jsonStringify (.jobj [("sid", jOfOpt st1.sessionID),
      ("svc", jOfOpt st1.sessionViewCount), ("ts", jOfOpt st1.sessionFirstSeen)])))
    (some cookieSessionExpiration) st1, none)

/-- `setupBrowserIdentity` (track.js lines 390-425).  On a parse failure the
catch block reports the error and then evaluates the bare identifier
`cookieBrowserIDName` — which is unbound (the field lives on `config`) — so
the function raises a `ReferenceError` instead of deleting the cookie and
retrying. -/
def setupBrowserIdentity (st : St) : St × Option JSErr :=
  match getCookie cookieBrowserIDName st with
  | .error e => (st, some e)
  | .ok none =>
    let st1 := { st with browserFirstSeen := some (.jnum st.clock) }
    let idst :=
      if optTrue st1.dntDetected then (JVal.jstr "dnt", st1)
      else
        let (r, st') := randomId st1
        (JVal.jnum r, st')
    let st3 := { idst.2 with browserID := some idst.1 }
    (setCookie cookieBrowserIDName
      (.jstr (jsonStringify (.jobj [("bid", jOfOpt st3.browserID),
        ("ts", jOfOpt st3.browserFirstSeen)])))
      (some cookieBrowserExpiration) st3, none)
  | .ok (some contents) =>
    match parseJson contents with
    | some parsed =>
      let st1 := { st with browserFirstSeen := jGet parsed "ts",
                           browserID := jGet parsed "bid" }
      (setCookie cookieBrowserIDName
        (.jstr (jsonStringify (.jobj [("bid", jOfOpt st1.browserID),
          ("ts", jOfOpt st1.browserFirstSeen)])))
        (some cookieBrowserExpiration) st1, none)
    | none =>
      let st1 := errorHandler (.syntaxError "Unexpected token in JSON") st
      (st1, some (.referenceError "cookieBrowserIDName"))

/-- `setupSessionIdentity` (track.js lines 431-471).  The parse-failure catch
block has the same unbound-identifier slip with `cookieSessionIDName`. -/
def setupSessionIdentity (st : St) : St × Option JSErr :=
  match getCookie cookieSessionIDName st with
  | .error e => (st, some e)
  | .ok none =>
    let st1 := { st with sessionFirstSeen := some (.jnum st.clock) }
    let idst :=
      if optTrue st1.dntDetected then (JVal.jstr "dnt", st1)
      else
        let (r, st') := randomId st1
        (JVal.jnum r, st')
    let st3 := { idst.2 with sessionID := some idst.1,
                             sessionViewCount := some (.jnum 0) }
    finishSession st3
  | .ok (some contents) =>
    match parseJson contents with
    | some parsed =>
      let st1 := { st with sessionFirstSeen := jGet parsed "ts",
                           sessionID := jGet parsed "sid",
                           sessionViewCount := jGet parsed "svc" }
      finishSession st1
    | none =>
      let st1 := errorHandler (.syntaxError "Unexpected token in JSON") st
      (st1, some (.referenceError "cookieSessionIDName"))

/-- Sequence two stateful steps, propagating a raised exception. -/
def andThenE (r : St × Option JSErr) (f : St → St × Option JSErr) : St × Option JSErr :=
  match r with
  | (st, none) => f st
  | (st, some e) => (st, some e)

/-- The top-level `try` block (track.js lines 553-562): detect, set up both
identities, report the page view, and drain the buffered performance entries. -/
def pageRunBody (entries : List JVal) (st : St) : St × Option JSErr :=
  andThenE (detectRuntimeConfig st) fun st1 =>
    andThenE (setupBrowserIdentity st1) fun st2 =>
      andThenE (setupSessionIdentity st2) fun st3 =>
        (entries.foldl (fun s e => queuePerformanceEntry e s) (reportPageView st3), none)

/-- The top-level `try`/`catch`: an exception from the block goes to
`errorHandler`. -/
def pageRun (entries : List JVal) (st : St) : St :=
  match pageRunBody entries st with
  | (st1, none) => st1
  | (st1, some e) => errorHandler e st1

/-- A whole page lifecycle: the initial script evaluation followed by the
unload handler. -/
def fullRun (entries : List JVal) (st : St) : St :=
  unloadHandler (pageRun entries st)

/-- The state at the start of a page load: fresh `runtimeInfo` globals, the
jar carried over from previous loads, and the `Math.random` oracle. -/
def initSt (env : Env) (jar : List (String × String)) (rands : List Nat) : St :=
  { env := env, clock := 0, cookiesSupported := none, dntDetected := none,
    useSecureCookie := none, browserFirstSeen := none, browserID := none,
    sessionFirstSeen := none, sessionID := none, sessionViewCount := none,
    dataQueue := [], queueTimer := none, nextTimerId := 1,
    cookies := jar, cookieWrites := [], sentBeacons := [], errorLog := [],
    randStream := rands }


/-! ## Helper lemmas for the runtime claims -/

/-- A sample page-load state used by the concrete counterexamples and
witnesses. -/
def sampleSt : St :=
  { initSt ⟨true, some true, false, false, "", "", 0⟩ [] [] with
      clock := 5, cookiesSupported := some true, dntDetected := some false }

theorem natToStr_data_ne_nil (n : Nat) : (natToStr n).data ≠ [] := by
  rcases Nat.eq_zero_or_pos n with h | h
  · subst h
    decide
  · rw [natToStr_data_pos (by omega)]
    have hne : Nat.digits 10 n ≠ [] := Nat.digits_ne_nil_iff_ne_zero.mpr (by omega)
    intro hc
    simp at hc
    exact hne hc

theorem btoaCore_ne_nil {bs : List Nat} (h : bs ≠ []) : btoaCore bs ≠ [] := by
  match bs with
  | [] => exact absurd rfl h
  | [a] => simp [btoaCore]
  | [a, b] => simp [btoaCore]
  | a :: b :: c :: r => simp [btoaCore]

theorem valueEncoder_ne_empty {v : String} (h : v.data ≠ []) : valueEncoder v ≠ "" := by
  rw [valueEncoder_eq_core]
  intro hc
  have hl : (btoaCore (v.data.flatMap utf8EncodeChar)).map websafeChar = [] := by
    have hd := congrArg String.data hc
    simpa using hd
  have hbs : v.data.flatMap utf8EncodeChar ≠ [] := by
    rcases hv : v.data with _ | ⟨c, cs⟩
    · exact absurd hv h
    · simp only [List.flatMap_cons]
      intro hcon
      rcases List.append_eq_nil.mp hcon with ⟨h1, _⟩
      exact utf8EncodeChar_ne_nil c h1
  exact btoaCore_ne_nil hbs (by simpa using hl)

theorem jvalBeq_str_num (s : String) (n : Nat) : jvalBeq (.jstr s) (.jnum n) = false := by
  simp [jvalBeq]

theorem jarLookup_upsert (jar : List (String × String)) (n enc : String) :
    jarLookup (jarUpsert jar n enc) n = some enc := by
  unfold jarLookup jarUpsert
  induction jar with
  | nil => simp
  | cons p jar ih =>
    by_cases hp : p.1 = n
    · simp [hp]
    · simp only [List.filter_cons]
      rw [if_pos (by simp [hp])]
      simp only [List.cons_append, List.find?_cons]
      simp only [show (p.1 == n) = false from by simp [hp]]
      exact ih

/-! ## C6, C7, C8, C9, C10 -/

/-- C10: when `navigator.sendBeacon` is unavailable, `immediateBeaconSend`
leaves the whole state — queue, timer, beacons, everything — unchanged. -/
theorem c10_no_transport_frame (st : St) (h : st.env.hasSendBeacon = false) :
    immediateBeaconSend st = st := by
  unfold immediateBeaconSend
  simp [h]

/-- Witness for C10 at a concrete beacon-less state. -/
theorem c10_no_transport_frame_witness :
    immediateBeaconSend (initSt ⟨false, none, false, false, "", "", 0⟩ [] [])
      = initSt ⟨false, none, false, false, "", "", 0⟩ [] [] :=
  c10_no_transport_frame _ rfl

/-- C6: with the beacon transport available, flush is a no-op on an empty
queue; on a non-empty queue it empties the queue, disarms the timer, and
submits exactly one envelope carrying the browser id, session id, session
view count, the shared clock, and the queued events in enqueue order
(`queueData` appends, so the envelope's `data` list is the enqueue order). -/
theorem c6_flush_semantics (st : St) (h : st.env.hasSendBeacon = true) :
    (st.dataQueue = [] → immediateBeaconSend st = st) ∧
    (st.dataQueue ≠ [] →
      (immediateBeaconSend st).dataQueue = [] ∧
      (immediateBeaconSend st).queueTimer = none ∧
      (immediateBeaconSend st).sentBeacons
        = st.sentBeacons ++ [(trackingEndPoint,
            .jobj [("bid", jOfOpt st.browserID), ("sid", jOfOpt st.sessionID),
              ("svc", jOfOpt st.sessionViewCount), ("data", .jarr st.dataQueue),
              ("ts", .jnum st.clock)])]) ∧
    (∀ d, (queueData d st).dataQueue = st.dataQueue ++ [d]) := by
  refine ⟨?_, ?_, ?_⟩
  · intro hq
    unfold immediateBeaconSend
    simp [h, hq]
  · intro hq
    have hlen : ¬(st.dataQueue.length = 0) := by
      simpa [List.length_eq_zero] using hq
    unfold immediateBeaconSend
    simp only [h, Bool.not_true, Bool.false_eq_true, if_false]
    rw [if_neg hlen]
    dsimp only [dataPacket]
    rcases htimer : st.queueTimer with _ | t <;> simp [htimer]
  · intro d
    unfold queueData
    rcases htimer : st.queueTimer with _ | t <;> simp

/-- Witness for C6: both flush branches at concrete states. -/
theorem c6_flush_semantics_witness :
    immediateBeaconSend sampleSt = sampleSt ∧
    (immediateBeaconSend { sampleSt with dataQueue := [.jnum 7] }).sentBeacons
      = [(trackingEndPoint,
          .jobj [("bid", .jnull), ("sid", .jnull), ("svc", .jnull),
            ("data", .jarr [.jnum 7]), ("ts", .jnum 5)])] := by
  constructor
  · exact (c6_flush_semantics sampleSt rfl).1 rfl
  · exact ((c6_flush_semantics { sampleSt with dataQueue := [.jnum 7] } rfl).2.1
      (by simp)).2.2

/-- Counterexample to C7 as stated: a performance record whose `name` is the
tracking endpoint but whose `entryType` is `mark` IS enqueued — the source
filter only applies to `resource` entries, not "regardless of the record's
entryType". -/
theorem c7_counterexample :
    (queuePerformanceEntry
        (.jobj [("entryType", .jstr "mark"), ("name", .jstr trackingEndPoint)])
        sampleSt).dataQueue
      = [.jobj [("ts", .jnum 5), ("type", .jnum analyticTypeViewPerformance),
          ("perfEntry", .jobj [("entryType", .jstr "mark"),
            ("name", .jstr trackingEndPoint)])]] ∧
    sampleSt.dataQueue = [] := by
  constructor
  · unfold queuePerformanceEntry
    simp [jGet, jsStrictEqOpt, jvalBeq, queueData, sampleSt, initSt]
  · rfl

/-- C7 (amended): `queuePerformanceEntry` drops a record iff its `entryType`
is `resource` and its `name` equals the error or tracking endpoint; records
of any other `entryType` are enqueued regardless of their `name`. -/
theorem c7_amended (st : St) (entry : JVal) :
    (jsStrictEqOpt (jGet entry "entryType") (.jstr "resource") = true →
      (jsStrictEqOpt (jGet entry "name") (.jstr errorEndPoint) = true ∨
        jsStrictEqOpt (jGet entry "name") (.jstr trackingEndPoint) = true) →
      queuePerformanceEntry entry st = st) ∧
    (jsStrictEqOpt (jGet entry "entryType") (.jstr "resource") = false →
      (queuePerformanceEntry entry st).dataQueue
        = st.dataQueue ++ [.jobj [("ts", .jnum st.clock),
            ("type", .jnum analyticTypeViewPerformance), ("perfEntry", entry)]]) := by
  constructor
  · intro h1 h2
    unfold queuePerformanceEntry
    rcases h2 with h2 | h2 <;> simp [h1, h2]
  · intro h1
    unfold queuePerformanceEntry
    rw [if_neg (by simp [h1])]
    unfold queueData
    rcases htimer : st.queueTimer with _ | t <;> simp [htimer]

/-- Witness for C7 (amended): a resource record naming the tracking endpoint
is dropped; a mark record is enqueued. -/
theorem c7_amended_witness :
    queuePerformanceEntry
        (.jobj [("entryType", .jstr "resource"), ("name", .jstr trackingEndPoint)])
        sampleSt
      = sampleSt ∧
    (queuePerformanceEntry
        (.jobj [("entryType", .jstr "mark"), ("name", .jstr trackingEndPoint)])
        sampleSt).dataQueue
      = sampleSt.dataQueue ++ [.jobj [("ts", .jnum sampleSt.clock),
          ("type", .jnum analyticTypeViewPerformance),
          ("perfEntry", .jobj [("entryType", .jstr "mark"),
            ("name", .jstr trackingEndPoint)])]] := by
  constructor
  · exact (c7_amended sampleSt _).1 (by simp [jGet, jsStrictEqOpt, jvalBeq, List.lookup])
      (Or.inr (by simp [jGet, jsStrictEqOpt, jvalBeq, List.lookup]))
  · exact (c7_amended sampleSt _).2 (by simp [jGet, jsStrictEqOpt, jvalBeq, List.lookup])

/-- Counterexample to C8 as stated: `deleteCookie`'s negative window
(`-2592000` seconds) is truthy in JS, so the written cookie string DOES carry
an `expires` attribute although the window is not positive. -/
theorem c8_counterexample :
    ((setCookie "b" (.jstr "") (some (-2592000)) sampleSt).cookieWrites.map
        fun w => w.expiresAt)
      = [some (-2592000000)] ∧ (-2592000 : Int) < 0 := by
  constructor
  · unfold setCookie
    simp [sampleSt, initSt, jsTruthyNum]
  · decide

/-- C8 (amended): with cookies not disabled, every `setCookie` call appends
exactly one write whose `expires` attribute is present iff the
`secondsToExpiration` argument is present and nonzero (JS truthiness — so a
negative window also carries `expires`, which is how `deleteCookie` forces
expiry), whose path is always `/`, and whose `secure` flag equals
`useSecureCookie`. -/
theorem c8_amended (st : St) (name : String) (value : JVal) (secs : Option Int)
    (h : st.cookiesSupported ≠ some false) :
    (setCookie name value secs st).cookieWrites
      = st.cookieWrites ++
        [{ name := cookieName name, value := valueEncoder (jsToString value),
           expiresAt :=
             if jsTruthyNum secs then some ((st.env.now : Int) + secs.getD 0 * 1000)
             else none,
           path := "/", secure := optTrue st.useSecureCookie }] ∧
    ((if jsTruthyNum secs then some ((st.env.now : Int) + secs.getD 0 * 1000)
        else none).isSome ↔ secs ≠ none ∧ secs ≠ some 0) := by
  constructor
  · unfold setCookie
    rw [if_neg (by simp [h])]
  · rcases secs with _ | v
    · simp [jsTruthyNum]
    · by_cases hv : v = 0 <;> simp [jsTruthyNum, hv]

/-- Witness for C8 (amended) at a session-lifetime write (no window). -/
theorem c8_amended_witness :
    (setCookie "chk" (.jstr "v") none sampleSt).cookieWrites
      = sampleSt.cookieWrites ++
        [{ name := cookieName "chk", value := valueEncoder (jsToString (.jstr "v")),
           expiresAt :=
             if jsTruthyNum none then some ((sampleSt.env.now : Int) + (none : Option Int).getD 0 * 1000)
             else none,
           path := "/", secure := optTrue sampleSt.useSecureCookie }] :=
  (c8_amended sampleSt "chk" (.jstr "v") none (by simp [sampleSt])).1

/-- C9: with DNT off and `navigator.cookieEnabled` undefined, the probe of
`testCookieSupport` resolves to `false` even though the jar faithfully stores
and returns the probe cookie: the read-back decoded string is compared with
`===` against the numeric `randomId()` value, and a string never strictly
equals a number. -/
theorem c9_probe_type_mismatch (st : St) (h1 : optTrue st.dntDetected = false)
    (h2 : st.env.cookieEnabled = none) :
    (testCookieSupport st).1 = some false := by
  unfold testCookieSupport
  rw [if_neg (by simp [h1]), h2]
  by_cases hcs : st.cookiesSupported == some false
  · unfold setCookie getCookie randomId
    simp [hcs, jsStrictEqOpt]
  · have hcs' : (st.cookiesSupported == some false) = false := by simpa using hcs
    have henc : valueEncoder (natToStr (st.randStream.head?.getD 0 % 17179869184)) ≠ "" :=
      valueEncoder_ne_empty (natToStr_data_ne_nil _)
    simp [getCookie, setCookie, randomId, deleteCookie, hcs', jsTruthyNum,
      jarLookup_upsert, henc, codec_round_trip, jsStrictEqOpt, jvalBeq_str_num,
      jsToString]

/-- Witness for C9 at a concrete `cookieEnabled`-undefined state. -/
theorem c9_probe_type_mismatch_witness :
    (testCookieSupport (initSt ⟨true, none, false, false, "", "", 0⟩ [] [42])).1
      = some false :=
  c9_probe_type_mismatch _ rfl rfl



/-! ### Composite page loads used by the identity claims -/

/-- One page load resolving browser identity: runtime-config detection
followed by `setupBrowserIdentity`. -/
def browserLoad (jar : List (String × String)) (now r : Nat) : St × Option JSErr :=
  andThenE
    (detectRuntimeConfig (initSt ⟨true, some true, false, false, "", "", now⟩ jar [r]))
    setupBrowserIdentity

/-- One page load resolving session identity: runtime-config detection
followed by `setupSessionIdentity`. -/
def sessionLoad (jar : List (String × String)) (now r : Nat) : St × Option JSErr :=
  andThenE
    (detectRuntimeConfig (initSt ⟨true, some true, false, false, "", "", now⟩ jar [r]))
    setupSessionIdentity

/-- A state whose stored browser-identity cookie decodes to the
non-JSON payload `"x"`. -/
def corruptBrowserSt : St :=
  { initSt ⟨true, some true, false, false, "", "", 1000⟩
      [(cookieName cookieBrowserIDName, valueEncoder "x")] [5] with
    clock := 1000, cookiesSupported := some true, dntDetected := some false,
    useSecureCookie := some false }

theorem browserPayload_data_ne_nil (bid ts : Nat) :
    (jsonStringify (browserPayload bid ts)).data ≠ [] := by
  rw [jsonStringify_browser]
  simp

theorem jGet_browserPayload (bid ts : Nat) :
    jGet (browserPayload bid ts) "bid" = some (.jnum bid) ∧
    jGet (browserPayload bid ts) "ts" = some (.jnum ts) := by
  constructor <;> simp [browserPayload, jGet, List.lookup]

theorem sessionPayload_data_ne_nil (sid svc ts : Nat) :
    (jsonStringify (sessionPayload sid svc ts)).data ≠ [] := by
  rw [jsonStringify_session]
  simp

theorem jGet_sessionPayload (sid svc ts : Nat) :
    jGet (sessionPayload sid svc ts) "sid" = some (.jnum sid) ∧
    jGet (sessionPayload sid svc ts) "svc" = some (.jnum svc) ∧
    jGet (sessionPayload sid svc ts) "ts" = some (.jnum ts) := by
  refine ⟨?_, ?_, ?_⟩ <;> simp [sessionPayload, jGet, List.lookup]

theorem sessionExp_pos (now : Nat) :
    ¬((now : Int) + cookieSessionExpiration * 1000 ≤ (now : Int)) := by
  unfold cookieSessionExpiration
  omega

/-- A session load with no stored session cookie mints identity `r % 2^34`,
view count 1, and persists the matching payload. -/
theorem sessionLoad_absent (now r : Nat) :
    (sessionLoad [] now r).2 = none ∧
    (sessionLoad [] now r).1.sessionViewCount = some (.jnum 1) ∧
    (sessionLoad [] now r).1.sessionID = some (.jnum (r % 2 ^ 34)) ∧
    (sessionLoad [] now r).1.sessionFirstSeen = some (.jnum now) ∧
    (sessionLoad [] now r).1.cookies
      = [(cookieName cookieSessionIDName,
          valueEncoder (jsonStringify (sessionPayload (r % 2 ^ 34) 1 now)))] := by
  have hdet : detectRuntimeConfig (initSt ⟨true, some true, false, false, "", "", now⟩ [] [r])
      = ({ initSt ⟨true, some true, false, false, "", "", now⟩ [] [r] with
          clock := now, dntDetected := some false, useSecureCookie := some false,
          cookiesSupported := some true }, none) := by
    unfold detectRuntimeConfig testCookieSupport
    simp [initSt, optTrue]
  unfold sessionLoad
  rw [hdet]
  unfold andThenE
  dsimp only
  unfold setupSessionIdentity
  rw [show getCookie cookieSessionIDName
      ({ initSt ⟨true, some true, false, false, "", "", now⟩ [] [r] with
        clock := now, dntDetected := some false, useSecureCookie := some false,
        cookiesSupported := some true })
      = .ok none from by
    unfold getCookie
    simp [initSt, jarLookup]]
  dsimp only
  rw [show optTrue (some false) = false from rfl]
  dsimp only [randomId, initSt]
  simp only [Bool.false_eq_true, if_false]
  unfold finishSession setCookie
  dsimp only
  rw [if_neg (by simp)]
  rw [show jsTruthyNum (some cookieSessionExpiration) = true from by decide]
  dsimp only [jOfOpt, Option.getD, jsPlusOne]
  simp only [eq_self_iff_true, if_true]
  rw [if_neg (sessionExp_pos now)]
  refine ⟨trivial, ?_, ?_, ?_, ?_⟩
  · simp [jsPlusOne]
  · simp
  · simp
  · unfold jarUpsert
    simp [jsToString, sessionPayload, jsPlusOne]

/-- A session load with a stored session cookie keeps the identity and
first-seen stamp, increments the view count, and persists the bump. -/
theorem sessionLoad_existing (sid svc ts now r : Nat) :
    (sessionLoad [(cookieName cookieSessionIDName,
        valueEncoder (jsonStringify (sessionPayload sid svc ts)))] now r).2 = none ∧
    (sessionLoad [(cookieName cookieSessionIDName,
        valueEncoder (jsonStringify (sessionPayload sid svc ts)))] now r).1.sessionViewCount
      = some (.jnum (svc + 1)) ∧
    (sessionLoad [(cookieName cookieSessionIDName,
        valueEncoder (jsonStringify (sessionPayload sid svc ts)))] now r).1.sessionID
      = some (.jnum sid) ∧
    (sessionLoad [(cookieName cookieSessionIDName,
        valueEncoder (jsonStringify (sessionPayload sid svc ts)))] now r).1.sessionFirstSeen
      = some (.jnum ts) ∧
    (sessionLoad [(cookieName cookieSessionIDName,
        valueEncoder (jsonStringify (sessionPayload sid svc ts)))] now r).1.cookies
      = [(cookieName cookieSessionIDName,
          valueEncoder (jsonStringify (sessionPayload sid (svc + 1) ts)))] := by
  have hne : valueEncoder (jsonStringify (sessionPayload sid svc ts)) ≠ "" :=
    valueEncoder_ne_empty (sessionPayload_data_ne_nil sid svc ts)
  have hdet : detectRuntimeConfig (initSt ⟨true, some true, false, false, "", "", now⟩
      [(cookieName cookieSessionIDName,
        valueEncoder (jsonStringify (sessionPayload sid svc ts)))] [r])
      = ({ initSt ⟨true, some true, false, false, "", "", now⟩
            [(cookieName cookieSessionIDName,
              valueEncoder (jsonStringify (sessionPayload sid svc ts)))] [r] with
          clock := now, dntDetected := some false, useSecureCookie := some false,
          cookiesSupported := some true }, none) := by
    unfold detectRuntimeConfig testCookieSupport
    simp [initSt, optTrue]
  unfold sessionLoad
  rw [hdet]
  unfold andThenE
  dsimp only
  unfold setupSessionIdentity
  rw [show getCookie cookieSessionIDName
      ({ initSt ⟨true, some true, false, false, "", "", now⟩
          [(cookieName cookieSessionIDName,
            valueEncoder (jsonStringify (sessionPayload sid svc ts)))] [r] with
        clock := now, dntDetected := some false, useSecureCookie := some false,
        cookiesSupported := some true })
      = .ok (some (jsonStringify (sessionPayload sid svc ts))) from by
    unfold getCookie
    simp [initSt, jarLookup, hne, codec_round_trip]]
  dsimp only
  rw [parseJson_session]
  dsimp only
  rw [(jGet_sessionPayload sid svc ts).1, (jGet_sessionPayload sid svc ts).2.1,
    (jGet_sessionPayload sid svc ts).2.2]
  unfold finishSession setCookie
  dsimp only [initSt]
  rw [if_neg (by simp)]
  rw [show jsTruthyNum (some cookieSessionExpiration) = true from by decide]
  dsimp only [jOfOpt, Option.getD, jsPlusOne]
  simp only [eq_self_iff_true, if_true]
  rw [if_neg (sessionExp_pos now)]
  refine ⟨trivial, ?_, ?_, ?_, ?_⟩
  · simp
  · simp
  · simp
  · unfold jarUpsert
    simp [jsToString, sessionPayload]

/-! ### Frame lemmas across the queue and transport layer -/

theorem queueData_frame (d : JVal) (st : St) :
    (queueData d st).cookieWrites = st.cookieWrites ∧
    (queueData d st).browserID = st.browserID ∧
    (queueData d st).sessionID = st.sessionID ∧
    (queueData d st).cookiesSupported = st.cookiesSupported := by
  unfold queueData
  rcases h : st.queueTimer with _ | t <;> simp [h]

theorem queuePerformanceEntry_frame (e : JVal) (st : St) :
    (queuePerformanceEntry e st).cookieWrites = st.cookieWrites ∧
    (queuePerformanceEntry e st).browserID = st.browserID ∧
    (queuePerformanceEntry e st).sessionID = st.sessionID ∧
    (queuePerformanceEntry e st).cookiesSupported = st.cookiesSupported := by
  by_cases hc : (jsStrictEqOpt (jGet e "entryType") (.jstr "resource") &&
      (jsStrictEqOpt (jGet e "name") (.jstr errorEndPoint) ||
        jsStrictEqOpt (jGet e "name") (.jstr trackingEndPoint))) = true
  · have heq : queuePerformanceEntry e st = st := by
      unfold queuePerformanceEntry
      simp [hc]
    rw [heq]
    exact ⟨rfl, rfl, rfl, rfl⟩
  · have heq : queuePerformanceEntry e st
        = queueData (.jobj [("ts", .jnum st.clock),
            ("type", .jnum analyticTypeViewPerformance), ("perfEntry", e)]) st := by
      unfold queuePerformanceEntry
      simp [hc]
    rw [heq]
    exact queueData_frame _ _

theorem perfFold_frame (es : List JVal) (st : St) :
    ((es.foldl (fun s e => queuePerformanceEntry e s) st)).cookieWrites = st.cookieWrites ∧
    ((es.foldl (fun s e => queuePerformanceEntry e s) st)).browserID = st.browserID ∧
    ((es.foldl (fun s e => queuePerformanceEntry e s) st)).sessionID = st.sessionID ∧
    ((es.foldl (fun s e => queuePerformanceEntry e s) st)).cookiesSupported
      = st.cookiesSupported := by
  induction es generalizing st with
  | nil => exact ⟨rfl, rfl, rfl, rfl⟩
  | cons e es ih =>
    simp only [List.foldl_cons]
    obtain ⟨h1, h2, h3, h4⟩ := ih (queuePerformanceEntry e st)
    obtain ⟨g1, g2, g3, g4⟩ := queuePerformanceEntry_frame e st
    exact ⟨h1.trans g1, h2.trans g2, h3.trans g3, h4.trans g4⟩

theorem immediateBeaconSend_frame (st : St) :
    (immediateBeaconSend st).cookieWrites = st.cookieWrites ∧
    (immediateBeaconSend st).browserID = st.browserID ∧
    (immediateBeaconSend st).sessionID = st.sessionID ∧
    (immediateBeaconSend st).cookiesSupported = st.cookiesSupported := by
  unfold immediateBeaconSend
  split
  · exact ⟨rfl, rfl, rfl, rfl⟩
  · split
    · exact ⟨rfl, rfl, rfl, rfl⟩
    · rcases h : st.queueTimer with _ | t <;> simp [h]

theorem reportPageView_frame (st : St) :
    (reportPageView st).cookieWrites = st.cookieWrites ∧
    (reportPageView st).browserID = st.browserID ∧
    (reportPageView st).sessionID = st.sessionID ∧
    (reportPageView st).cookiesSupported = st.cookiesSupported := by
  unfold reportPageView
  exact immediateBeaconSend_frame _

theorem unloadHandler_frame (st : St) :
    (unloadHandler st).cookieWrites = st.cookieWrites ∧
    (unloadHandler st).browserID = st.browserID ∧
    (unloadHandler st).sessionID = st.sessionID ∧
    (unloadHandler st).cookiesSupported = st.cookiesSupported := by
  unfold unloadHandler
  exact immediateBeaconSend_frame _

/-! ### Claims C2 through C5 -/

/-- C2: with a stored browser-identity cookie whose decoded payload `"x"` is
not parseable as JSON, `setupBrowserIdentity` does not self-heal.  The
`JSON.parse` failure lands in a catch block that references the unbound
identifier `cookieBrowserIDName` (the field lives on `config`), so after
logging one syntax-error diagnostic the handler itself raises a
`ReferenceError`: the corrupt cookie is never deleted, resolution is never
retried, no fresh identity is minted, and the surrounding page run records a
second error from its top-level handler. -/
theorem c2_corrupt_cookie_raises :
    (setupBrowserIdentity corruptBrowserSt).2
        = some (.referenceError "cookieBrowserIDName") ∧
    (setupBrowserIdentity corruptBrowserSt).1.cookies
        = [(cookieName cookieBrowserIDName, valueEncoder "x")] ∧
    (setupBrowserIdentity corruptBrowserSt).1.browserID = none ∧
    (setupBrowserIdentity corruptBrowserSt).1.errorLog = ["Unexpected token in JSON"] ∧
    (pageRun [] (initSt ⟨true, some true, false, false, "", "", 1000⟩
        [(cookieName cookieBrowserIDName, valueEncoder "x")] [5])).errorLog
      = ["Unexpected token in JSON", "cookieBrowserIDName is not defined"] := by
  have hne : valueEncoder "x" ≠ "" := valueEncoder_ne_empty (by decide)
  have hget : ∀ st : St, st.cookiesSupported = some true →
      st.cookies = [(cookieName cookieBrowserIDName, valueEncoder "x")] →
      getCookie cookieBrowserIDName st = .ok (some "x") := by
    intro st hcs hjar
    unfold getCookie
    simp [hcs, hjar, jarLookup, hne, codec_round_trip]
  have hsetup : ∀ st : St, st.cookiesSupported = some true →
      st.cookies = [(cookieName cookieBrowserIDName, valueEncoder "x")] →
      setupBrowserIdentity st
        = (errorHandler (.syntaxError "Unexpected token in JSON") st,
            some (.referenceError "cookieBrowserIDName")) := by
    intro st hcs hjar
    unfold setupBrowserIdentity
    rw [hget st hcs hjar]
    rfl
  have h1 := hsetup corruptBrowserSt rfl rfl
  refine ⟨by rw [h1], by rw [h1]; rfl, by rw [h1]; rfl, by rw [h1]; rfl, ?_⟩
  · unfold pageRun pageRunBody
    rw [show detectRuntimeConfig (initSt ⟨true, some true, false, false, "", "", 1000⟩
        [(cookieName cookieBrowserIDName, valueEncoder "x")] [5])
      = (corruptBrowserSt, none) from by
        unfold detectRuntimeConfig testCookieSupport
        simp [initSt, optTrue, corruptBrowserSt]]
    unfold andThenE
    dsimp only
    rw [hsetup corruptBrowserSt rfl rfl]
    rfl

/-- C3: in every run whose environment signals Do Not Track, `cookiesSupported`
resolves to `false`, no cookie write (the probe cookie included) is performed
by any operation of the run, and both resolved identity tokens are the
sentinel string `'dnt'`. -/
theorem c3_dnt_no_cookies (env : Env) (jar : List (String × String)) (rands : List Nat)
    (entries : List JVal) (hdnt : env.doNotTrack = true) :
    (fullRun entries (initSt env jar rands)).cookieWrites = [] ∧
    (fullRun entries (initSt env jar rands)).browserID = some (.jstr "dnt") ∧
    (fullRun entries (initSt env jar rands)).sessionID = some (.jstr "dnt") ∧
    (fullRun entries (initSt env jar rands)).cookiesSupported = some false := by
  have hdet : detectRuntimeConfig (initSt env jar rands)
      = ({ initSt env jar rands with
          clock := env.now, dntDetected := some true,
          useSecureCookie := some env.secureTransport,
          cookiesSupported := some false }, none) := by
    unfold detectRuntimeConfig testCookieSupport
    simp [initSt, optTrue, hdnt]
  have hb : setupBrowserIdentity ({ initSt env jar rands with
        clock := env.now, dntDetected := some true,
        useSecureCookie := some env.secureTransport,
        cookiesSupported := some false })
      = ({ initSt env jar rands with
          clock := env.now, dntDetected := some true,
          useSecureCookie := some env.secureTransport,
          cookiesSupported := some false,
          browserFirstSeen := some (.jnum env.now),
          browserID := some (.jstr "dnt") }, none) := by
    unfold setupBrowserIdentity getCookie setCookie
    simp [initSt, optTrue]
  have hs : setupSessionIdentity ({ initSt env jar rands with
        clock := env.now, dntDetected := some true,
        useSecureCookie := some env.secureTransport,
        cookiesSupported := some false,
        browserFirstSeen := some (.jnum env.now),
        browserID := some (.jstr "dnt") })
      = ({ initSt env jar rands with
          clock := env.now, dntDetected := some true,
          useSecureCookie := some env.secureTransport,
          cookiesSupported := some false,
          browserFirstSeen := some (.jnum env.now),
          browserID := some (.jstr "dnt"),
          sessionFirstSeen := some (.jnum env.now),
          sessionID := some (.jstr "dnt"),
          sessionViewCount := some (.jnum 1) }, none) := by
    unfold setupSessionIdentity getCookie finishSession setCookie
    simp [initSt, optTrue, jsPlusOne]
  unfold fullRun pageRun pageRunBody
  rw [hdet]
  unfold andThenE
  dsimp only
  rw [hb]
  dsimp only
  rw [hs]
  dsimp only
  have h1 := unloadHandler_frame (entries.foldl (fun s e => queuePerformanceEntry e s)
    (reportPageView ({ initSt env jar rands with
      clock := env.now, dntDetected := some true,
      useSecureCookie := some env.secureTransport,
      cookiesSupported := some false,
      browserFirstSeen := some (.jnum env.now),
      browserID := some (.jstr "dnt"),
      sessionFirstSeen := some (.jnum env.now),
      sessionID := some (.jstr "dnt"),
      sessionViewCount := some (.jnum 1) })))
  have h2 := perfFold_frame entries (reportPageView ({ initSt env jar rands with
      clock := env.now, dntDetected := some true,
      useSecureCookie := some env.secureTransport,
      cookiesSupported := some false,
      browserFirstSeen := some (.jnum env.now),
      browserID := some (.jstr "dnt"),
      sessionFirstSeen := some (.jnum env.now),
      sessionID := some (.jstr "dnt"),
      sessionViewCount := some (.jnum 1) }))
  have h3 := reportPageView_frame ({ initSt env jar rands with
      clock := env.now, dntDetected := some true,
      useSecureCookie := some env.secureTransport,
      cookiesSupported := some false,
      browserFirstSeen := some (.jnum env.now),
      browserID := some (.jstr "dnt"),
      sessionFirstSeen := some (.jnum env.now),
      sessionID := some (.jstr "dnt"),
      sessionViewCount := some (.jnum 1) })
  exact ⟨((h1.1).trans ((h2.1).trans h3.1)).trans rfl,
    ((h1.2.1).trans ((h2.2.1).trans h3.2.1)).trans rfl,
    ((h1.2.2.1).trans ((h2.2.2.1).trans h3.2.2.1)).trans rfl,
    ((h1.2.2.2).trans ((h2.2.2.2).trans h3.2.2.2)).trans rfl⟩

/-- Witness for C3 at a concrete DNT environment. -/
theorem c3_dnt_no_cookies_witness :
    (fullRun [] (initSt ⟨true, some true, false, true, "", "", 5⟩ [] [7])).cookieWrites
        = [] ∧
    (fullRun [] (initSt ⟨true, some true, false, true, "", "", 5⟩ [] [7])).browserID
        = some (.jstr "dnt") ∧
    (fullRun [] (initSt ⟨true, some true, false, true, "", "", 5⟩ [] [7])).sessionID
        = some (.jstr "dnt") ∧
    (fullRun [] (initSt ⟨true, some true, false, true, "", "", 5⟩ [] [7])).cookiesSupported
        = some false :=
  c3_dnt_no_cookies ⟨true, some true, false, true, "", "", 5⟩ [] [7] [] rfl

/-- C4: starting from an empty jar with cookies supported, and feeding each
load's persisted cookie to the next, three consecutive session resolutions
yield `sessionViewCount` 1, 2, 3 in order, each value also being the `svc`
persisted in that load's session cookie. -/
theorem c4_session_view_counts (n1 n2 n3 r1 r2 r3 : Nat) :
    (sessionLoad [] n1 r1).2 = none ∧
    (sessionLoad [] n1 r1).1.sessionViewCount = some (.jnum 1) ∧
    (sessionLoad [] n1 r1).1.cookies
      = [(cookieName cookieSessionIDName,
          valueEncoder (jsonStringify (sessionPayload (r1 % 2 ^ 34) 1 n1)))] ∧
    (sessionLoad [(cookieName cookieSessionIDName,
        valueEncoder (jsonStringify (sessionPayload (r1 % 2 ^ 34) 1 n1)))] n2 r2).2 = none ∧
    (sessionLoad [(cookieName cookieSessionIDName,
        valueEncoder (jsonStringify (sessionPayload (r1 % 2 ^ 34) 1 n1)))] n2 r2).1.sessionViewCount
      = some (.jnum 2) ∧
    (sessionLoad [(cookieName cookieSessionIDName,
        valueEncoder (jsonStringify (sessionPayload (r1 % 2 ^ 34) 1 n1)))] n2 r2).1.cookies
      = [(cookieName cookieSessionIDName,
          valueEncoder (jsonStringify (sessionPayload (r1 % 2 ^ 34) 2 n1)))] ∧
    (sessionLoad [(cookieName cookieSessionIDName,
        valueEncoder (jsonStringify (sessionPayload (r1 % 2 ^ 34) 2 n1)))] n3 r3).2 = none ∧
    (sessionLoad [(cookieName cookieSessionIDName,
        valueEncoder (jsonStringify (sessionPayload (r1 % 2 ^ 34) 2 n1)))] n3 r3).1.sessionViewCount
      = some (.jnum 3) ∧
    (sessionLoad [(cookieName cookieSessionIDName,
        valueEncoder (jsonStringify (sessionPayload (r1 % 2 ^ 34) 2 n1)))] n3 r3).1.cookies
      = [(cookieName cookieSessionIDName,
          valueEncoder (jsonStringify (sessionPayload (r1 % 2 ^ 34) 3 n1)))] := by
  obtain ⟨a1, a2, -, -, a5⟩ := sessionLoad_absent n1 r1
  obtain ⟨b1, b2, -, -, b5⟩ := sessionLoad_existing (r1 % 2 ^ 34) 1 n1 n2 r2
  obtain ⟨d1, d2, -, -, d5⟩ := sessionLoad_existing (r1 % 2 ^ 34) 2 n1 n3 r3
  exact ⟨a1, a2, a5, b1, b2, b5, d1, d2, d5⟩

/-- C5: re-resolving browser identity over an existing valid identity cookie
holding id `I` and first-seen stamp `T0` (cookies supported, DNT off) raises
no error, yields the same `I` and `T0`, leaves the jar entry's payload
unchanged, and records one cookie write carrying that same payload with the
full browser validity window from the current clock. -/
theorem c5_identity_persistence (I T0 now r : Nat) :
    (browserLoad [(cookieName cookieBrowserIDName,
        valueEncoder (jsonStringify (browserPayload I T0)))] now r).2 = none ∧
    (browserLoad [(cookieName cookieBrowserIDName,
        valueEncoder (jsonStringify (browserPayload I T0)))] now r).1.browserID
      = some (.jnum I) ∧
    (browserLoad [(cookieName cookieBrowserIDName,
        valueEncoder (jsonStringify (browserPayload I T0)))] now r).1.browserFirstSeen
      = some (.jnum T0) ∧
    (browserLoad [(cookieName cookieBrowserIDName,
        valueEncoder (jsonStringify (browserPayload I T0)))] now r).1.cookies
      = [(cookieName cookieBrowserIDName,
          valueEncoder (jsonStringify (browserPayload I T0)))] ∧
    (browserLoad [(cookieName cookieBrowserIDName,
        valueEncoder (jsonStringify (browserPayload I T0)))] now r).1.cookieWrites
      = [{ name := cookieName cookieBrowserIDName,
           value := valueEncoder (jsonStringify (browserPayload I T0)),
           expiresAt := some ((now : Int) + cookieBrowserExpiration * 1000),
           path := "/", secure := false }] := by
  have hne : valueEncoder (jsonStringify (browserPayload I T0)) ≠ "" :=
    valueEncoder_ne_empty (browserPayload_data_ne_nil I T0)
  have hdet : detectRuntimeConfig (initSt ⟨true, some true, false, false, "", "", now⟩
      [(cookieName cookieBrowserIDName,
        valueEncoder (jsonStringify (browserPayload I T0)))] [r])
      = ({ initSt ⟨true, some true, false, false, "", "", now⟩
            [(cookieName cookieBrowserIDName,
              valueEncoder (jsonStringify (browserPayload I T0)))] [r] with
          clock := now, dntDetected := some false, useSecureCookie := some false,
          cookiesSupported := some true }, none) := by
    unfold detectRuntimeConfig testCookieSupport
    simp [initSt, optTrue]
  unfold browserLoad
  rw [hdet]
  unfold andThenE
  dsimp only
  unfold setupBrowserIdentity
  rw [show getCookie cookieBrowserIDName
      ({ initSt ⟨true, some true, false, false, "", "", now⟩
          [(cookieName cookieBrowserIDName,
            valueEncoder (jsonStringify (browserPayload I T0)))] [r] with
        clock := now, dntDetected := some false, useSecureCookie := some false,
        cookiesSupported := some true })
      = .ok (some (jsonStringify (browserPayload I T0))) from by
    unfold getCookie
    simp [initSt, jarLookup, hne, codec_round_trip]]
  dsimp only
  rw [parseJson_browser]
  dsimp only
  rw [(jGet_browserPayload I T0).1, (jGet_browserPayload I T0).2]
  unfold setCookie
  dsimp only [initSt]
  rw [if_neg (by simp)]
  rw [show jsTruthyNum (some cookieBrowserExpiration) = true from by decide]
  dsimp only [jOfOpt, Option.getD]
  simp only [eq_self_iff_true, if_true]
  rw [if_neg (show ¬((now : Int) + cookieBrowserExpiration * 1000 ≤ (now : Int)) from by
    unfold cookieBrowserExpiration; omega)]
  refine ⟨trivial, trivial, trivial, ?_, ?_⟩
  · unfold jarUpsert
    simp [jsToString, browserPayload]
  · simp [jsToString, optTrue, browserPayload]

end Scout
